import Mathlib

/-!
Verification development for the similarity / clustering engine of the
`compear` repository (`src/utils/similarity.ts`, `src/utils/topicModeling.ts`,
`src/utils/webgpuSimilarity.ts`).

JavaScript `number` values are modelled by `JsNum`: an idealized IEEE value
that is either NaN, a signed infinity, or an exact real.  Rounding is ignored
(every finite value is an exact real); the special values NaN and ±Infinity
and the division/sqrt rules that produce them are modelled exactly, because
several claims are about exact zeroes and NaN propagation.
-/

namespace Compear

/-- Model of a JavaScript `number` (and WGSL `f32`): NaN, a signed infinity
(`inf true` is `+Infinity`), or an exact real value. -/
inductive JsNum where
  | nan : JsNum
  | inf : Bool → JsNum
  | val : ℝ → JsNum

open JsNum

/-- JavaScript addition on `JsNum`. -/
def jadd : JsNum → JsNum → JsNum
  | nan, _ => nan
  | _, nan => nan
  | inf s, inf t => if s = t then inf s else nan
  | inf s, val _ => inf s
  | val _, inf t => inf t
  | val a, val b => val (a + b)

/-- JavaScript multiplication on `JsNum`. -/
noncomputable def jmul : JsNum → JsNum → JsNum
  | nan, _ => nan
  | _, nan => nan
  | inf s, inf t => inf (s = t)
  | inf s, val a => if a = 0 then nan else if 0 < a then inf s else inf (!s)
  | val a, inf t => if a = 0 then nan else if 0 < a then inf t else inf (!t)
  | val a, val b => val (a * b)

/-- JavaScript division on `JsNum` (`0/0 = NaN`, `x/0 = ±Infinity` for
nonzero `x`, finite `/ ±Infinity = 0`). -/
noncomputable def jdiv : JsNum → JsNum → JsNum
  | nan, _ => nan
  | _, nan => nan
  | inf _, inf _ => nan
  | inf s, val b => if 0 ≤ b then inf s else inf (!s)
  | val _, inf _ => val 0
  | val a, val b =>
      if b = 0 then (if a = 0 then nan else if 0 < a then inf true else inf false)
      else val (a / b)

/-- JavaScript `Math.sqrt` (and WGSL `sqrt`) on `JsNum`. -/
noncomputable def jsqrt : JsNum → JsNum
  | nan => nan
  | inf s => if s then inf true else nan
  | val a => if a < 0 then nan else val (Real.sqrt a)

/-- JavaScript strict `<` comparison: any comparison with NaN is false. -/
def jlt : JsNum → JsNum → Prop
  | nan, _ => False
  | _, nan => False
  | inf s, inf t => s = false ∧ t = true
  | inf s, val _ => s = false
  | val _, inf t => t = true
  | val a, val b => a < b

/-- JavaScript `=== 0` test. -/
def jeq0 : JsNum → Prop
  | val a => a = 0
  | _ => False

/-- JavaScript `x || 0` on numbers: NaN (and 0 itself) maps to 0, everything
else is kept.  Used by the internal cosine in `topicModeling.ts`. -/
def jor0 : JsNum → JsNum
  | nan => val 0
  | inf s => inf s
  | val a => val a

/-- JavaScript `x || 1` on numbers: NaN and 0 map to 1.  Used by the
centroid-normalization guards in `webgpuSimilarity.ts`. -/
noncomputable def jor1 : JsNum → JsNum
  | nan => val 1
  | inf s => inf s
  | val a => if a = 0 then val 1 else val a

@[simp] theorem jadd_val_val (a b : ℝ) : jadd (val a) (val b) = val (a + b) := rfl
@[simp] theorem jmul_val_val (a b : ℝ) : jmul (val a) (val b) = val (a * b) := rfl
@[simp] theorem jadd_nan_right (x : JsNum) : jadd x nan = nan := by cases x <;> rfl
@[simp] theorem jadd_nan_left (x : JsNum) : jadd nan x = nan := by cases x <;> rfl
@[simp] theorem jmul_nan_left (x : JsNum) : jmul nan x = nan := by cases x <;> rfl
@[simp] theorem jmul_nan_right (x : JsNum) : jmul x nan = nan := by cases x <;> rfl
@[simp] theorem jor0_val (a : ℝ) : jor0 (val a) = val a := rfl
@[simp] theorem jor0_nan : jor0 nan = val 0 := rfl
@[simp] theorem jlt_val_val (a b : ℝ) : jlt (val a) (val b) ↔ a < b := Iff.rfl
@[simp] theorem jlt_ninf_val (a : ℝ) : jlt (inf false) (val a) := rfl
@[simp] theorem jeq0_val (a : ℝ) : jeq0 (val a) ↔ a = 0 := Iff.rfl
@[simp] theorem jlt_ninf_nan : ¬ jlt (inf false) nan := fun h => h
@[simp] theorem jlt_val_nan (a : ℝ) : ¬ jlt (val a) nan := fun h => h

theorem jsqrt_val_nonneg {a : ℝ} (h : 0 ≤ a) : jsqrt (val a) = val (Real.sqrt a) := by
  simp [jsqrt, not_lt.mpr h]

@[simp] theorem jsqrt_zero : jsqrt (val 0) = val 0 := by
  simp [jsqrt_val_nonneg le_rfl]

@[simp] theorem jsqrt_one : jsqrt (val 1) = val 1 := by
  simp [jsqrt_val_nonneg zero_le_one]

theorem jdiv_val_val_of_ne {a b : ℝ} (h : b ≠ 0) :
    jdiv (val a) (val b) = val (a / b) := by
  simp [jdiv, h]

@[simp] theorem jdiv_val_one (a : ℝ) : jdiv (val a) (val 1) = val a := by
  rw [jdiv_val_val_of_ne one_ne_zero, div_one]

@[simp] theorem jdiv_zero_zero : jdiv (val 0) (val 0) = nan := by
  simp [jdiv]

@[simp] theorem jor1_val_ne {a : ℝ} (h : a ≠ 0) : jor1 (val a) = val a := by
  simp [jor1, h]

@[simp] theorem jor1_zero : jor1 (val 0) = val 1 := by simp [jor1]

@[simp] theorem jdiv_one_any (x : JsNum) : jdiv x (val 1) = x := by
  cases x with
  | nan => rfl
  | inf s => simp [jdiv]
  | val a => simp


/-! ## Triangular pair enumeration and the parallel backend's index recovery

`pairList N` is the row-major triangular enumeration produced by the CPU
double loops (`for i; for j = i + 1 ...`).  `recoverGo` is the WGSL shader
loop that recovers `(i, j)` from a linear pair index (`computeShaderCode`
lines 74-88 and `hierarchicalShaderCode` lines 563-577 of
`webgpuSimilarity.ts`); `u32` underflow of `rowSize - 1u` is modelled by the
explicit wrap-around value, and falling out of the loop leaves `i = j = 0`
as in the shader. -/

/-- Row-major triangular enumeration of the index pairs `(i, j)` with
`i < j < N`, in the order the CPU double loops visit them. -/
def pairList (N : ℕ) : List (ℕ × ℕ) :=
  (List.range N).flatMap (fun i => (List.range (N - 1 - i)).map (fun t => (i, i + 1 + t)))

/-- The shader's index-recovery loop body; `fuel` is the number of remaining
loop iterations (the shader iterates `row` from `0` to `numVectors - 1`). -/
def recoverGo : ℕ → ℕ → ℕ → ℕ → ℕ × ℕ
  | 0, _, _, _ => (0, 0)
  | fuel + 1, row, remaining, rowSize =>
      if remaining < rowSize then (row, row + remaining + 1)
      else recoverGo fuel (row + 1) (remaining - rowSize)
        (if rowSize = 0 then 4294967295 else rowSize - 1)

/-- The shaders' recovery of `(i, j)` from a linear pair index `p`, starting
at `row = 0` with `rowSize = N - 1`. -/
def recoverPair (N p : ℕ) : ℕ × ℕ := recoverGo N 0 p (N - 1)

theorem recoverGo_succ (fuel row remaining rowSize : ℕ) :
    recoverGo (fuel + 1) row remaining rowSize =
      if remaining < rowSize then (row, row + remaining + 1)
      else recoverGo fuel (row + 1) (remaining - rowSize)
        (if rowSize = 0 then 4294967295 else rowSize - 1) := rfl

/-- Triangular numbers: `tri n = n + (n - 1) + ... + 1`. -/
def tri : ℕ → ℕ
  | 0 => 0
  | n + 1 => (n + 1) + tri n

theorem tri_succ (n : ℕ) : tri (n + 1) = (n + 1) + tri n := rfl

theorem tri_eq (n : ℕ) : tri n = (n + 1) * n / 2 := by
  induction n with
  | zero => rfl
  | succ m ih =>
      rw [tri_succ, ih]
      have h : (m + 1 + 1) * (m + 1) = (m + 1) * m + 2 * (m + 1) := by ring
      omega

theorem tri_pred (N : ℕ) : tri (N - 1) = N * (N - 1) / 2 := by
  cases N with
  | zero => rfl
  | succ m => rw [Nat.succ_sub_one, tri_eq]

theorem pairList_succ (N : ℕ) :
    pairList (N + 1) =
      (List.range N).map (fun t => ((0 : ℕ), t + 1)) ++
        (pairList N).map (fun q => (q.1 + 1, q.2 + 1)) := by
  rw [pairList, List.range_succ_eq_map, List.flatMap_cons]
  congr 1
  · simp only [Nat.add_sub_cancel, Nat.sub_zero]
    apply List.map_congr_left
    intro t _
    simp only [Prod.mk.injEq, true_and, Nat.zero_add]
    omega
  · rw [List.flatMap_map, pairList, List.map_flatMap]
    apply List.flatMap_congr
    intro i _
    rw [List.map_map]
    have hr : N + 1 - 1 - Nat.succ i = N - 1 - i := by omega
    rw [hr]
    apply List.map_congr_left
    intro t _
    simp only [Function.comp_apply, Prod.mk.injEq, true_and]
    omega

theorem pairList_length (N : ℕ) : (pairList N).length = tri (N - 1) := by
  induction N with
  | zero => rfl
  | succ N ih =>
      rw [pairList_succ, List.length_append, List.length_map, List.length_map,
        List.length_range, ih]
      cases N with
      | zero => simp [tri]
      | succ m => rw [Nat.succ_sub_one, Nat.succ_sub_one, tri_succ]

theorem mem_pairList (N : ℕ) :
    ∀ i j : ℕ, ((i, j) ∈ pairList N ↔ i < j ∧ j < N) := by
  induction N with
  | zero => intro i j; simp [pairList]
  | succ N ih =>
      intro i j
      simp only [pairList_succ, List.mem_append, List.mem_map, List.mem_range,
        Prod.mk.injEq, Prod.exists]
      constructor
      · rintro (⟨t, ht, hi, hj⟩ | ⟨a, b, hab, hi, hj⟩)
        · omega
        · have := (ih a b).mp hab
          omega
      · rintro ⟨hij, hjN⟩
        rcases Nat.eq_zero_or_pos i with hz | hp
        · exact Or.inl ⟨j - 1, by omega, by omega, by omega⟩
        · exact Or.inr ⟨i - 1, j - 1, (ih _ _).mpr (by omega), by omega, by omega⟩

theorem nodup_pairList (N : ℕ) : (pairList N).Nodup := by
  induction N with
  | zero => exact List.nodup_nil
  | succ N ih =>
      rw [pairList_succ, List.nodup_append]
      refine ⟨?_, ?_, ?_⟩
      · exact (List.nodup_range N).map (fun a b h => by
          simpa using congrArg Prod.snd h)
      · exact ih.map (fun a b h => by
          have h1 := congrArg Prod.fst h
          have h2 := congrArg Prod.snd h
          simp only at h1 h2
          exact Prod.ext (by omega) (by omega))
      · intro p hp hq
        simp only [List.mem_map, List.mem_range] at hp hq
        obtain ⟨t, _, rfl⟩ := hp
        obtain ⟨q, _, hq⟩ := hq
        exact absurd (congrArg Prod.fst hq.symm) (by simp)

theorem recoverGo_shift (fuel : ℕ) :
    ∀ rowSize remaining row, remaining < tri rowSize → rowSize ≤ fuel →
      recoverGo fuel row remaining rowSize =
        ((recoverGo fuel 0 remaining rowSize).1 + row,
         (recoverGo fuel 0 remaining rowSize).2 + row) := by
  induction fuel with
  | zero =>
      intro rowSize remaining row hrem hfuel
      have h0 : rowSize = 0 := Nat.le_zero.mp hfuel
      subst h0
      simp [tri] at hrem
  | succ fuel ih =>
      intro rowSize remaining row hrem hfuel
      by_cases hlt : remaining < rowSize
      · simp only [recoverGo_succ, if_pos hlt, Prod.mk.injEq]
        omega
      · have hrs : rowSize ≠ 0 := by
          intro h
          subst h
          simp [tri] at hrem
        have hrem' : remaining - rowSize < tri (rowSize - 1) := by
          cases rowSize with
          | zero => exact absurd rfl hrs
          | succ m =>
              simp only [Nat.succ_sub_one]
              rw [tri_succ] at hrem
              omega
        have hf' : rowSize - 1 ≤ fuel := by omega
        simp only [recoverGo_succ, if_neg hlt, if_neg hrs]
        rw [ih _ _ (row + 1) hrem' hf', ih _ _ 1 hrem' hf']
        simp only [Prod.mk.injEq]
        omega

theorem pairList_getElem? (N : ℕ) :
    ∀ p : ℕ, p < tri (N - 1) → (pairList N)[p]? = some (recoverPair N p) := by
  induction N with
  | zero => intro p hp; simp [tri] at hp
  | succ N ih =>
      intro p hp
      cases N with
      | zero => simp [tri] at hp
      | succ M =>
        have hp1 : p < (M + 1) + tri M := by
          rw [Nat.succ_sub_one, tri_succ] at hp
          exact hp
        rw [pairList_succ]
        by_cases hlt : p < M + 1
        · rw [List.getElem?_append_left (by simpa using hlt), List.getElem?_map,
            List.getElem?_range hlt, Option.map_some']
          rw [recoverPair, recoverGo_succ]
          rw [show M + 1 + 1 - 1 = M + 1 by omega, if_pos hlt]
          simp
        · have hlen : (List.map (fun t => ((0 : ℕ), t + 1)) (List.range (M + 1))).length ≤ p := by
            simpa using hlt
          rw [List.getElem?_append_right hlen, List.getElem?_map]
          simp only [List.length_map, List.length_range]
          have hp' : p - (M + 1) < tri ((M + 1) - 1) := by
            simp only [Nat.succ_sub_one]
            omega
          rw [ih _ hp', Option.map_some']
          have hrp : recoverPair (M + 1 + 1) p =
              ((recoverPair (M + 1) (p - (M + 1))).1 + 1,
               (recoverPair (M + 1) (p - (M + 1))).2 + 1) := by
            rw [recoverPair, recoverGo_succ]
            rw [show M + 1 + 1 - 1 = M + 1 by omega, if_neg hlt,
              if_neg (Nat.succ_ne_zero M)]
            have hs := recoverGo_shift (M + 1) M (p - (M + 1)) 1
              (by simpa using hp') (by omega)
            rw [recoverPair]
            simp only [Nat.zero_add, Nat.succ_sub_one]
            rw [hs]
          rw [hrp]

/-! ## Stable sorting

JavaScript's `Array.prototype.sort` is a stable sort driven by a comparator;
the source always uses comparators of the form `(a, b) => key(b) - key(a)`
(descending by key, ties kept in original order).  `sortBy r` is a stable
insertion sort placing `x` before the first `y` with `r x y`; with
`r x y := ¬ key x < key y` it computes exactly the stable descending order. -/

open Classical in
noncomputable def insertBy {α : Type} (r : α → α → Prop) (x : α) : List α → List α
  | [] => [x]
  | y :: ys => if r x y then x :: y :: ys else y :: insertBy r x ys

noncomputable def sortBy {α : Type} (r : α → α → Prop) : List α → List α
  | [] => []
  | x :: xs => insertBy r x (sortBy r xs)

theorem insertBy_perm {α : Type} (r : α → α → Prop) (x : α) :
    ∀ l : List α, List.Perm (insertBy r x l) (x :: l) := by
  intro l
  induction l with
  | nil => exact List.Perm.refl _
  | cons y ys ih =>
      rw [insertBy]
      by_cases h : r x y
      · rw [if_pos h]
      · rw [if_neg h]
        exact (ih.cons y).trans (List.Perm.swap x y ys)

theorem sortBy_perm {α : Type} (r : α → α → Prop) :
    ∀ l : List α, List.Perm (sortBy r l) l := by
  intro l
  induction l with
  | nil => exact List.Perm.refl _
  | cons x xs ih =>
      rw [sortBy]
      exact (insertBy_perm r x (sortBy r xs)).trans (ih.cons x)

theorem sortBy_length {α : Type} (r : α → α → Prop) (l : List α) :
    (sortBy r l).length = l.length :=
  (sortBy_perm r l).length_eq

/-! ## Vector arithmetic and the three cosine implementations -/

/-- JavaScript indexing `v[i]`: `undefined` out of range poisons arithmetic
exactly like NaN, so the fallback is `nan`. -/
def ventry (v : List JsNum) (i : ℕ) : JsNum := v.getD i JsNum.nan

/-- Accumulation loop `for (i = 0; i < n; i++) acc += f(i)` starting at 0,
the shape of every sum in the source. -/
def jsumRange (n : ℕ) (f : ℕ → JsNum) : JsNum :=
  (List.range n).foldl (fun acc i => jadd acc (f i)) (val 0)

theorem jsumRange_zero (f : ℕ → JsNum) : jsumRange 0 f = val 0 := rfl

theorem jsumRange_one (f : ℕ → JsNum) : jsumRange 1 f = jadd (val 0) (f 0) := rfl

theorem jsumRange_succ (n : ℕ) (f : ℕ → JsNum) :
    jsumRange (n + 1) f = jadd (jsumRange n f) (f n) := by
  rw [jsumRange, jsumRange, List.range_succ, List.foldl_append, List.foldl_cons,
    List.foldl_nil]

theorem jsumRange_val (n : ℕ) (f : ℕ → JsNum) (g : ℕ → ℝ)
    (h : ∀ i < n, f i = val (g i)) :
    jsumRange n f = val (∑ i ∈ Finset.range n, g i) := by
  induction n with
  | zero => simp [jsumRange_zero]
  | succ m ih =>
      rw [jsumRange_succ, ih (fun i hi => h i (by omega)), h m (by omega),
        jadd_val_val, Finset.sum_range_succ]

theorem ventry_map_val (a : List ℝ) (i : ℕ) (h : i < a.length) :
    ventry (a.map val) i = val (a.getD i 0) := by
  rw [ventry, List.getD_eq_getElem?_getD, List.getD_eq_getElem?_getD,
    List.getElem?_map, List.getElem?_eq_getElem h]
  simp

open Classical in
/-- The public CPU entry point `cosineSimilarity` of `similarity.ts`
(lines 1-23): length check, three accumulators in one loop over
`vecA.length`, and an exact `denominator === 0` guard. -/
noncomputable def cosineSimilarity (vecA vecB : List JsNum) : Except String JsNum :=
  if vecA.length ≠ vecB.length then .error "Vectors must have the same length"
  else
    let dotProduct := jsumRange vecA.length (fun i => jmul (ventry vecA i) (ventry vecB i))
    let normA := jsumRange vecA.length (fun i => jmul (ventry vecA i) (ventry vecA i))
    let normB := jsumRange vecA.length (fun i => jmul (ventry vecB i) (ventry vecB i))
    let denominator := jmul (jsqrt normA) (jsqrt normB)
    if jeq0 denominator then .ok (val 0) else .ok (jdiv dotProduct denominator)

/-- The internal cosine of `topicModeling.ts` (lines 135-149), textually
repeated as the host-side coherence helpers of `webgpuSimilarity.ts`
(lines 763-777 and 844-858): entries coerced by `|| 0`, and no
zero-denominator guard. -/
noncomputable def cosineSimilarityTM (a b : List JsNum) : JsNum :=
  let dotProduct := jsumRange a.length (fun i => jmul (jor0 (ventry a i)) (jor0 (ventry b i)))
  let normA := jsumRange a.length (fun i => jmul (jor0 (ventry a i)) (jor0 (ventry a i)))
  let normB := jsumRange a.length (fun i => jmul (jor0 (ventry b i)) (jor0 (ventry b i)))
  jdiv dotProduct (jmul (jsqrt normA) (jsqrt normB))

open Classical in
/-- The WGSL `cosineSimilarity` shared by the three compute shaders of
`webgpuSimilarity.ts` (pairwise lines 42-64, k-means lines 463-485,
hierarchical lines 529-551): reads `vectorDim` entries of two flat `f32`
buffers at the given offsets, with the exact `denominator == 0.0` guard.
A read past the written data yields the buffer's zero fill. -/
noncomputable def cosineSimilarityWGSL (bufA bufB : List JsNum) (offA offB dim : ℕ) : JsNum :=
  let dp := jsumRange dim (fun i => jmul (bufA.getD (offA + i) (val 0)) (bufB.getD (offB + i) (val 0)))
  let na := jsumRange dim (fun i => jmul (bufA.getD (offA + i) (val 0)) (bufA.getD (offA + i) (val 0)))
  let nb := jsumRange dim (fun i => jmul (bufB.getD (offB + i) (val 0)) (bufB.getD (offB + i) (val 0)))
  let denominator := jmul (jsqrt na) (jsqrt nb)
  if jeq0 denominator then val 0 else jdiv dp denominator

theorem getD_map_val0 (l : List ℝ) (j : ℕ) :
    (l.map val).getD j (val 0) = val (l.getD j 0) := by
  by_cases h : j < l.length
  · rw [List.getD_eq_getElem?_getD, List.getD_eq_getElem?_getD,
      List.getElem?_map, List.getElem?_eq_getElem h]
    simp
  · rw [List.getD_eq_getElem?_getD, List.getD_eq_getElem?_getD,
      List.getElem?_eq_none (by simpa using h),
      List.getElem?_eq_none (by simpa using Nat.le_of_not_lt h)]
    rfl

theorem sum_sq_nonneg (a : List ℝ) (n : ℕ) :
    0 ≤ ∑ i ∈ Finset.range n, a.getD i 0 * a.getD i 0 :=
  Finset.sum_nonneg fun i _ => mul_self_nonneg _

/-- Evaluation of the public CPU cosine on real-entried vectors. -/
theorem cosineSimilarity_map_val (a b : List ℝ) (hl : a.length = b.length) :
    cosineSimilarity (a.map val) (b.map val) =
      (if (Real.sqrt (∑ i ∈ Finset.range a.length, a.getD i 0 * a.getD i 0) *
            Real.sqrt (∑ i ∈ Finset.range a.length, b.getD i 0 * b.getD i 0)) = 0
       then Except.ok (val 0)
       else Except.ok (jdiv
          (val (∑ i ∈ Finset.range a.length, a.getD i 0 * b.getD i 0))
          (val (Real.sqrt (∑ i ∈ Finset.range a.length, a.getD i 0 * a.getD i 0) *
                Real.sqrt (∑ i ∈ Finset.range a.length, b.getD i 0 * b.getD i 0))))) := by
  rw [cosineSimilarity]
  rw [if_neg (by simp [hl])]
  have hA : jsumRange (a.map val).length
      (fun i => jmul (ventry (a.map val) i) (ventry (a.map val) i)) =
      val (∑ i ∈ Finset.range a.length, a.getD i 0 * a.getD i 0) := by
    rw [List.length_map]
    exact jsumRange_val _ _ _ fun i hi => by
      rw [ventry_map_val a i (by simpa using hi), jmul_val_val]
  have hB : jsumRange (a.map val).length
      (fun i => jmul (ventry (b.map val) i) (ventry (b.map val) i)) =
      val (∑ i ∈ Finset.range a.length, b.getD i 0 * b.getD i 0) := by
    rw [List.length_map]
    exact jsumRange_val _ _ _ fun i hi => by
      rw [ventry_map_val b i (by omega), jmul_val_val]
  have hD : jsumRange (a.map val).length
      (fun i => jmul (ventry (a.map val) i) (ventry (b.map val) i)) =
      val (∑ i ∈ Finset.range a.length, a.getD i 0 * b.getD i 0) := by
    rw [List.length_map]
    exact jsumRange_val _ _ _ fun i hi => by
      rw [ventry_map_val a i (by simpa using hi), ventry_map_val b i (by omega), jmul_val_val]
  rw [hA, hB, hD]
  simp only []
  rw [jsqrt_val_nonneg (sum_sq_nonneg a _), jsqrt_val_nonneg (sum_sq_nonneg b _),
    jmul_val_val]
  by_cases hz : (Real.sqrt (∑ i ∈ Finset.range a.length, a.getD i 0 * a.getD i 0) *
      Real.sqrt (∑ i ∈ Finset.range a.length, b.getD i 0 * b.getD i 0)) = 0
  · rw [if_pos hz, if_pos (by simpa using hz)]
  · rw [if_neg hz, if_neg (by simpa using hz)]

/-- Evaluation of the WGSL shader cosine on real-entried buffers at offset 0. -/
theorem cosineSimilarityWGSL_map_val (a b : List ℝ) (n : ℕ) :
    cosineSimilarityWGSL (a.map val) (b.map val) 0 0 n =
      (if (Real.sqrt (∑ i ∈ Finset.range n, a.getD i 0 * a.getD i 0) *
            Real.sqrt (∑ i ∈ Finset.range n, b.getD i 0 * b.getD i 0)) = 0
       then val 0
       else jdiv (val (∑ i ∈ Finset.range n, a.getD i 0 * b.getD i 0))
          (val (Real.sqrt (∑ i ∈ Finset.range n, a.getD i 0 * a.getD i 0) *
                Real.sqrt (∑ i ∈ Finset.range n, b.getD i 0 * b.getD i 0)))) := by
  rw [cosineSimilarityWGSL]
  have hA : jsumRange n (fun i => jmul ((a.map val).getD (0 + i) (val 0))
      ((a.map val).getD (0 + i) (val 0))) =
      val (∑ i ∈ Finset.range n, a.getD i 0 * a.getD i 0) :=
    jsumRange_val _ _ _ fun _ _ => by
      rw [Nat.zero_add, getD_map_val0, jmul_val_val]
  have hB : jsumRange n (fun i => jmul ((b.map val).getD (0 + i) (val 0))
      ((b.map val).getD (0 + i) (val 0))) =
      val (∑ i ∈ Finset.range n, b.getD i 0 * b.getD i 0) :=
    jsumRange_val _ _ _ fun _ _ => by
      rw [Nat.zero_add, getD_map_val0, jmul_val_val]
  have hD : jsumRange n (fun i => jmul ((a.map val).getD (0 + i) (val 0))
      ((b.map val).getD (0 + i) (val 0))) =
      val (∑ i ∈ Finset.range n, a.getD i 0 * b.getD i 0) :=
    jsumRange_val _ _ _ fun _ _ => by
      rw [Nat.zero_add, getD_map_val0, getD_map_val0, jmul_val_val]
  rw [hA, hB, hD]
  rw [jsqrt_val_nonneg (sum_sq_nonneg a _), jsqrt_val_nonneg (sum_sq_nonneg b _),
    jmul_val_val]
  by_cases hz : (Real.sqrt (∑ i ∈ Finset.range n, a.getD i 0 * a.getD i 0) *
      Real.sqrt (∑ i ∈ Finset.range n, b.getD i 0 * b.getD i 0)) = 0
  · rw [if_pos hz, if_pos (by simpa using hz)]
  · rw [if_neg hz, if_neg (by simpa using hz)]

/-! ## The pairwise similarity engine (`calculatePairwiseSimilarities`) -/

/-- A similarity pair record (`similarity.ts` lines 25-29). -/
structure SimilarityPair where
  rowIndexA : ℕ
  rowIndexB : ℕ
  score : JsNum

/-- The values of `j` visited by the inner loop
`for (j = i + 1; j < n; j++)`. -/
def innerRange (i n : ℕ) : List ℕ := (List.range (n - 1 - i)).map (fun t => i + 1 + t)

/-- The inner loop of `calculatePairwiseSimilarities` (`similarity.ts`
lines 42-59): skips when `excludeSelfComparison && i === j`, otherwise
scores the pair, appends it, bumps the progress counter and records a
progress-callback invocation every 100 pairs.  The state is
`(pairsProcessed, progress events, results)`. -/
noncomputable def pwInner (emb : List (List JsNum)) (flag : Bool) (total i : ℕ) :
    List ℕ → ℕ × List (ℕ × ℕ) × List SimilarityPair →
      Except String (ℕ × List (ℕ × ℕ) × List SimilarityPair)
  | [], st => .ok st
  | j :: js, st =>
      if flag ∧ i = j then pwInner emb flag total i js st
      else
        match cosineSimilarity (emb.getD i []) (emb.getD j []) with
        | .error e => .error e
        | .ok s =>
            let cnt := st.1 + 1
            let evs := if cnt % 100 = 0 then st.2.1 ++ [(cnt, total)] else st.2.1
            pwInner emb flag total i js (cnt, evs, st.2.2 ++ [⟨i, j, s⟩])

/-- The outer loop of `calculatePairwiseSimilarities` over `i`. -/
noncomputable def pwOuter (emb : List (List JsNum)) (flag : Bool) (total : ℕ) :
    List ℕ → ℕ × List (ℕ × ℕ) × List SimilarityPair →
      Except String (ℕ × List (ℕ × ℕ) × List SimilarityPair)
  | [], st => .ok st
  | i :: rest, st =>
      match pwInner emb flag total i (innerRange i emb.length) st with
      | .error e => .error e
      | .ok st' => pwOuter emb flag total rest st'

/-- The final sort `results.sort((a, b) => b.score - a.score)`: stable,
descending by score. -/
noncomputable def sortByScore (l : List SimilarityPair) : List SimilarityPair :=
  sortBy (fun p q => ¬ jlt p.score q.score) l

/-- `calculatePairwiseSimilarities` of `similarity.ts` (lines 31-68),
returning the sorted pair list together with the sequence of progress
callback invocations (the final `(total, total)` call included). -/
noncomputable def calculatePairwiseSimilarities (emb : List (List JsNum)) (flag : Bool) :
    Except String (List SimilarityPair × List (ℕ × ℕ)) :=
  let n := emb.length
  let total := n * (n - 1) / 2
  match pwOuter emb flag total (List.range n) (0, [], []) with
  | .error e => .error e
  | .ok st => .ok (sortByScore st.2.2, st.2.1 ++ [(total, total)])

theorem not_mem_innerRange (i n : ℕ) : i ∉ innerRange i n := by
  rw [innerRange]
  intro h
  obtain ⟨t, _, ht⟩ := List.mem_map.mp h
  omega

theorem pwInner_flag_irrelevant (emb : List (List JsNum)) (total i : ℕ) :
    ∀ (js : List ℕ) (st : ℕ × List (ℕ × ℕ) × List SimilarityPair), i ∉ js →
      pwInner emb true total i js st = pwInner emb false total i js st := by
  intro js
  induction js with
  | nil => intro st _; rfl
  | cons j js ih =>
      intro st hj
      have hij : i ≠ j := fun h => hj (h ▸ List.mem_cons_self i js)
      rw [pwInner, pwInner, if_neg (by simp [hij]), if_neg (by simp)]
      cases h : cosineSimilarity (emb.getD i []) (emb.getD j []) with
      | error e => rfl
      | ok s => exact ih _ (fun hm => hj (List.mem_cons_of_mem j hm))

theorem pwOuter_flag_irrelevant (emb : List (List JsNum)) (total : ℕ) :
    ∀ (rest : List ℕ) (st : ℕ × List (ℕ × ℕ) × List SimilarityPair),
      pwOuter emb true total rest st = pwOuter emb false total rest st := by
  intro rest
  induction rest with
  | nil => intro st; rfl
  | cons i rest ih =>
      intro st
      rw [pwOuter, pwOuter,
        pwInner_flag_irrelevant emb total i _ st (not_mem_innerRange i emb.length)]
      cases h : pwInner emb false total i (innerRange i emb.length) st with
      | error e => rfl
      | ok st' => exact ih st'

theorem cosineSimilarity_ok_of_length_eq (a b : List JsNum) (h : a.length = b.length) :
    ∃ s, cosineSimilarity a b = .ok s := by
  rw [cosineSimilarity, if_neg (by simp [h])]
  by_cases hz : jeq0 (jmul
      (jsqrt (jsumRange a.length fun i => jmul (ventry a i) (ventry a i)))
      (jsqrt (jsumRange a.length fun i => jmul (ventry b i) (ventry b i))))
  · exact ⟨val 0, by rw [if_pos hz]⟩
  · exact ⟨_, by rw [if_neg hz]⟩

theorem pwInner_proj (emb : List (List JsNum)) (total i : ℕ) :
    ∀ (js : List ℕ) (st : ℕ × List (ℕ × ℕ) × List SimilarityPair), i ∉ js →
      (∀ j ∈ js, (emb.getD i []).length = (emb.getD j []).length) →
      ∃ st', pwInner emb true total i js st = .ok st' ∧
        st'.2.2.map (fun p => (p.rowIndexA, p.rowIndexB)) =
          st.2.2.map (fun p => (p.rowIndexA, p.rowIndexB)) ++
            js.map (fun j => (i, j)) := by
  intro js
  induction js with
  | nil => intro st _ _; exact ⟨st, rfl, by simp⟩
  | cons j js ih =>
      intro st hj hlen
      have hij : i ≠ j := fun h => hj (h ▸ List.mem_cons_self i js)
      rw [pwInner, if_neg (by simp [hij])]
      obtain ⟨s, hs⟩ := cosineSimilarity_ok_of_length_eq _ _
        (hlen j (List.mem_cons_self j js))
      rw [hs]
      obtain ⟨st', hok, hmap⟩ := ih
        (st.1 + 1,
          (if (st.1 + 1) % 100 = 0 then st.2.1 ++ [(st.1 + 1, total)] else st.2.1),
          st.2.2 ++ [⟨i, j, s⟩])
        (fun hm => hj (List.mem_cons_of_mem j hm))
        (fun j' hm => hlen j' (List.mem_cons_of_mem j hm))
      refine ⟨st', hok, ?_⟩
      rw [hmap]
      simp [List.map_append]

theorem pwOuter_proj (emb : List (List JsNum)) (total : ℕ) (d : ℕ)
    (hrows : ∀ v ∈ emb, v.length = d) :
    ∀ (rest : List ℕ) (st : ℕ × List (ℕ × ℕ) × List SimilarityPair),
      (∀ i ∈ rest, i < emb.length) →
      ∃ st', pwOuter emb true total rest st = .ok st' ∧
        st'.2.2.map (fun p => (p.rowIndexA, p.rowIndexB)) =
          st.2.2.map (fun p => (p.rowIndexA, p.rowIndexB)) ++
            rest.flatMap (fun i => (innerRange i emb.length).map (fun j => (i, j))) := by
  intro rest
  induction rest with
  | nil => intro st _; exact ⟨st, rfl, by simp⟩
  | cons i rest ih =>
      intro st hmem
      have hi : i < emb.length := hmem i (List.mem_cons_self i rest)
      have hlen : ∀ j ∈ innerRange i emb.length,
          (emb.getD i []).length = (emb.getD j []).length := by
        intro j hm
        obtain ⟨t, ht, hj⟩ := List.mem_map.mp hm
        rw [List.mem_range] at ht
        have hjlt : j < emb.length := by omega
        have h1 : emb.getD i [] ∈ emb := by
          rw [List.getD_eq_getElem?_getD, List.getElem?_eq_getElem hi]
          exact List.getElem_mem _
        have h2 : emb.getD j [] ∈ emb := by
          rw [List.getD_eq_getElem?_getD, List.getElem?_eq_getElem hjlt]
          exact List.getElem_mem _
        rw [hrows _ h1, hrows _ h2]
      obtain ⟨st1, hok1, hmap1⟩ :=
        pwInner_proj emb total i (innerRange i emb.length) st
          (not_mem_innerRange i emb.length) hlen
      rw [pwOuter, hok1]
      obtain ⟨st', hok2, hmap2⟩ := ih st1
        (fun i' hm => hmem i' (List.mem_cons_of_mem i hm))
      refine ⟨st', hok2, ?_⟩
      rw [hmap2, hmap1, List.flatMap_cons, List.append_assoc]

theorem flatMap_innerRange_eq_pairList (n : ℕ) :
    (List.range n).flatMap (fun i => (innerRange i n).map (fun j => (i, j))) =
      pairList n := by
  rw [pairList]
  apply List.flatMap_congr
  intro i _
  rw [innerRange, List.map_map]
  rfl

/-! ## K-means clustering (`kMeansClustering` / `kMeansClusteringGPU`)

The random seeding loop, the final cluster assembly and the internal cosine
are textually identical in the CPU (`topicModeling.ts`) and GPU
(`webgpuSimilarity.ts`) backends, so they are embedded once.  Randomness is
the stream `picks` of `Math.floor(Math.random() * N)` draws; a `while` loop
that is still running when the finite stream is exhausted is `none`. -/

/-- A cluster record (`topicModeling.ts` lines 152-156, `KMeansCluster` of
`webgpuSimilarity.ts` lines 511-515). -/
structure Cluster where
  centroid : List JsNum
  documentIndices : List ℕ
  coherence : JsNum

/-- Random centroid seeding (`topicModeling.ts` lines 206-214 and the
identical `webgpuSimilarity.ts` lines 610-618): keep drawing indices until
`k` distinct in-range ones have been found, copying those rows. -/
def seedLoop (emb : List (List JsNum)) (k : ℤ) :
    List ℕ → List (List JsNum) → List ℕ → Option (List (List JsNum))
  | [], cents, _ => if (cents.length : ℤ) < k then none else some cents
  | p :: ps, cents, used =>
      if (cents.length : ℤ) < k then
        if p ∉ used ∧ p < emb.length then
          seedLoop emb k ps (cents ++ [emb.getD p []]) (used ++ [p])
        else seedLoop emb k ps cents used
      else some cents

open Classical in
/-- One row's assignment (`topicModeling.ts` lines 222-238): scan centroid
ids `0..k-1` skipping missing centroids, keep the first strict improvement;
`maxSim` starts at `-Infinity` and `bestCluster` at `0`. -/
noncomputable def assignOne (cents : List (List JsNum)) (k : ℤ) (e : List JsNum) : ℕ :=
  ((List.range k.toNat).foldl
    (fun st c =>
      if c < cents.length then
        if jlt st.1 (cosineSimilarityTM e (cents.getD c [])) then
          (cosineSimilarityTM e (cents.getD c []), c)
        else st
      else st)
    (JsNum.inf false, 0)).2

/-- `clusterPoints`: members of cluster `c`
(`embeddings.filter((_, i) => assignments[i] === c)`). -/
def clusterPoints (emb : List (List JsNum)) (assigns : List ℕ) (c : ℕ) :
    List (List JsNum) :=
  (emb.enum.filter (fun q => assigns.get? q.1 = some c)).map (fun q => q.2)

/-- Arithmetic column mean of member rows (`topicModeling.ts` lines 249-259,
`webgpuSimilarity.ts` lines 731-741): entry reads past a short row are
`undefined` and poison the sum. -/
noncomputable def colMeanK (pts : List (List JsNum)) (dim : ℕ) : List JsNum :=
  (List.range dim).map fun d =>
    jdiv (pts.foldl (fun acc p => jadd acc (ventry p d)) (val 0)) (val pts.length)

/-- `Math.sqrt(centroid.reduce((sum, v) => sum + v * v, 0))`. -/
noncomputable def centroidNorm (v : List JsNum) : JsNum :=
  jsqrt (v.foldl (fun acc x => jadd acc (jmul x x)) (val 0))

/-- CPU k-means centroid normalization (`topicModeling.ts` lines 261-265):
divides every component by the norm with no zero guard. -/
noncomputable def cpuNormalizeCentroid (v : List JsNum) : List JsNum :=
  v.map (fun x => jdiv x (centroidNorm v))

/-- GPU centroid normalization (`webgpuSimilarity.ts` lines 743-747, also
lines 1011-1015): divides by `norm || 1`. -/
noncomputable def gpuNormalizeCentroid (v : List JsNum) : List JsNum :=
  v.map (fun x => jdiv x (jor1 (centroidNorm v)))

/-- CPU centroid update (`topicModeling.ts` lines 244-269): clusters with
members get the normalized mean, empty clusters keep their centroid. -/
noncomputable def cpuUpdateCentroids (emb : List (List JsNum)) (dim : ℕ)
    (assigns : List ℕ) (k : ℤ) (cents : List (List JsNum)) : List (List JsNum) :=
  (List.range k.toNat).foldl
    (fun cs c =>
      if 0 < (clusterPoints emb assigns c).length then
        cs.set c (cpuNormalizeCentroid (colMeanK (clusterPoints emb assigns c) dim))
      else cs)
    cents

/-- GPU centroid update (`webgpuSimilarity.ts` lines 722-751): identical to
the CPU one except for the `norm || 1` guard. -/
noncomputable def gpuUpdateCentroids (emb : List (List JsNum)) (dim : ℕ)
    (assigns : List ℕ) (k : ℤ) (cents : List (List JsNum)) : List (List JsNum) :=
  (List.range k.toNat).foldl
    (fun cs c =>
      if 0 < (clusterPoints emb assigns c).length then
        cs.set c (gpuNormalizeCentroid (colMeanK (clusterPoints emb assigns c) dim))
      else cs)
    cents

/-- The CPU k-means iteration loop (`topicModeling.ts` lines 216-275):
assign every row, compare with the previous assignment array, update
centroids (the source updates even on the converged pass, then leaves the
loop), with `fuel` the remaining iterations out of `maxIterations = 100`. -/
noncomputable def kmeansLoop (emb : List (List JsNum)) (k : ℤ) (dim : ℕ) :
    ℕ → List ℕ → List (List JsNum) → List ℕ × List (List JsNum)
  | 0, assigns, cents => (assigns, cents)
  | fuel + 1, assigns, cents =>
      let newA := emb.map (assignOne cents k)
      let cents2 := cpuUpdateCentroids emb dim newA k cents
      if newA = assigns then (newA, cents2)
      else kmeansLoop emb k dim fuel newA cents2

theorem kmeansLoop_succ (emb : List (List JsNum)) (k : ℤ) (dim fuel : ℕ)
    (assigns : List ℕ) (cents : List (List JsNum)) :
    kmeansLoop emb k dim (fuel + 1) assigns cents =
      if emb.map (assignOne cents k) = assigns
      then (emb.map (assignOne cents k), cpuUpdateCentroids emb dim (emb.map (assignOne cents k)) k cents)
      else kmeansLoop emb k dim fuel (emb.map (assignOne cents k))
        (cpuUpdateCentroids emb dim (emb.map (assignOne cents k)) k cents) := rfl

/-- Member indices of cluster `c` in the output assembly
(`topicModeling.ts` line 280, `webgpuSimilarity.ts` lines 780-785). -/
def clusterDocs (assigns : List ℕ) (c : ℕ) : List ℕ :=
  (assigns.enum.filter (fun q => q.2 = c)).map (fun q => q.1)

open Classical in
/-- Post-hoc coherence (`topicModeling.ts` lines 282-291,
`webgpuSimilarity.ts` lines 787-796): mean internal-cosine similarity of the
members to the centroid; `0` for an empty cluster; an out-of-range member
index contributes `0` (the `emb ?` guard). -/
noncomputable def clusterCoherence (emb : List (List JsNum)) (cent : List JsNum)
    (docs : List ℕ) : JsNum :=
  if 0 < docs.length then
    jdiv (docs.foldl
        (fun acc i => jadd acc
          (if i < emb.length then cosineSimilarityTM (emb.getD i []) cent else val 0))
        (val 0))
      (val docs.length)
  else val 0

/-- The final sort `(a, b) => b.documentIndices.length -
a.documentIndices.length`: stable, descending by member count. -/
noncomputable def sortBySize (l : List Cluster) : List Cluster :=
  sortBy (fun x y => ¬ (x.documentIndices.length < y.documentIndices.length)) l

/-- Output assembly shared by both k-means backends (`topicModeling.ts`
lines 277-305, `webgpuSimilarity.ts` lines 759-817): one cluster is pushed
for every id `0..k-1` whose centroid exists - member lists may be empty -
then the list is sorted by size. -/
noncomputable def buildClusters (emb : List (List JsNum)) (cents : List (List JsNum))
    (assigns : List ℕ) (k : ℤ) : List Cluster :=
  sortBySize ((List.range k.toNat).filterMap (fun c =>
    if c < cents.length then
      some ⟨cents.getD c [], clusterDocs assigns c,
        clusterCoherence emb (cents.getD c []) (clusterDocs assigns c)⟩
    else none))

/-- `kMeansClustering` of `topicModeling.ts` (lines 193-306): empty input
or zero dimension short-circuits, then seeding, the bounded iteration loop
and the output assembly. -/
noncomputable def kMeansClustering (emb : List (List JsNum)) (k : ℤ)
    (picks : List ℕ) : Option (List Cluster) :=
  if emb.length = 0 ∨ (emb.getD 0 []).length = 0 then some []
  else
    match seedLoop emb k picks [] [] with
    | none => none
    | some cents =>
        let st := kmeansLoop emb k ((emb.getD 0 []).length) 100
          (List.replicate emb.length 0) cents
        some (buildClusters emb st.2 st.1 k)

/-! ## Backend selector state machine (`initializeWebGPU`)

The process-wide state of `webgpuSimilarity.ts` (lines 3-4) is the pair
`(gpuDevice, isWebGPUAvailable)`.  `initializeWebGPU` (lines 6-29) is a
transition parametrized by the environment's probe outcome; it returns the
new state, the boolean result, and whether a probe (an adapter request) was
attempted on this call. -/

/-- The process-wide selector state: the cached device handle and the
availability flag. -/
structure GpuState where
  device : Option Unit
  avail : Bool

/-- What the environment does when probed: WebGPU unsupported
(`navigator.gpu` absent, no adapter request made), no adapter returned,
device creation throwing, or success. -/
inductive ProbeOutcome where
  | unsupported : ProbeOutcome
  | noAdapter : ProbeOutcome
  | deviceFail : ProbeOutcome
  | ok : ProbeOutcome

/-- `initializeWebGPU` (lines 6-29): returns `(state', returned, probed)`.
A cached device short-circuits to `true`; otherwise the probe runs and only
success mutates the state. -/
def initializeWebGPU (s : GpuState) (p : ProbeOutcome) : GpuState × Bool × Bool :=
  if s.device.isSome then (s, true, false)
  else
    match p with
    | .unsupported => (s, false, false)
    | .noAdapter => (s, false, true)
    | .deviceFail => (s, false, true)
    | .ok => (⟨some (), true⟩, true, true)

/-- `isWebGPUAvailableForSimilarity` (lines 222-224). -/
def isWebGPUAvailableForSimilarity (s : GpuState) : Bool :=
  s.avail && s.device.isSome

/-- The backend-selection prologue of `performClustering`
(`topicModeling.ts` lines 164-178): initialize when unavailable, then route
to the GPU when available.  Returns `(state', usedParallel, probed)`. -/
def performClusteringSelect (s : GpuState) (p : ProbeOutcome) :
    GpuState × Bool × Bool :=
  if isWebGPUAvailableForSimilarity s then (s, true, false)
  else
    let r := initializeWebGPU s p
    (r.1, isWebGPUAvailableForSimilarity r.1, r.2.2)

/-! ## Hierarchical clustering (`hierarchicalClustering` /
`hierarchicalClusteringGPU`)

The CPU backend scores a cluster pair by the MEAN PAIRWISE internal cosine
of their members (`topicModeling.ts` lines 331-346); the GPU backend's
shader scores it by the guarded cosine of the two CENTROIDS
(`hierarchicalShaderCode` lines 579-581).  Both scans are row-major with
strict improvement from `maxSim = -Infinity`, `(mergeI, mergeJ) = (0, 1)`. -/

/-- CPU average-linkage score (`topicModeling.ts` lines 331-346): member
pairs with an out-of-range index are skipped by the `emb1 && emb2` guard;
the total is divided by the pair count. -/
noncomputable def avgLinkage (emb : List (List JsNum)) (ci cj : List ℕ) : JsNum :=
  jdiv
    (((ci.flatMap (fun x => cj.map (fun y => (x, y)))).filter
        (fun q => q.1 < emb.length ∧ q.2 < emb.length)).foldl
      (fun acc q => jadd acc
        (cosineSimilarityTM (emb.getD q.1 []) (emb.getD q.2 []))) (val 0))
    (val (((ci.flatMap (fun x => cj.map (fun y => (x, y)))).filter
        (fun q => q.1 < emb.length ∧ q.2 < emb.length)).length))

open Classical in
/-- The row-major strict-improvement scan for the best pair, shared by both
backends (`topicModeling.ts` lines 320-353, `webgpuSimilarity.ts` lines
971-987). -/
noncomputable def scanMaxPair (scores : List ((ℕ × ℕ) × JsNum)) : ℕ × ℕ :=
  (scores.foldl (fun st x => if jlt st.2 x.2 then x else st)
    ((0, 1), JsNum.inf false)).1

/-- CPU merge-pair search: every cluster pair scored by average linkage. -/
noncomputable def cpuFindMerge (emb : List (List JsNum)) (cls : List (List ℕ)) :
    ℕ × ℕ :=
  scanMaxPair ((pairList cls.length).map
    (fun ij => (ij, avgLinkage emb (cls.getD ij.1 []) (cls.getD ij.2 []))))

/-- One CPU merge step (`topicModeling.ts` lines 355-361): concatenate at
`mergeI`, splice out `mergeJ`; the `clusterI && clusterJ` guard skips an
out-of-range merge. -/
noncomputable def cpuMergeStep (emb : List (List JsNum)) (cls : List (List ℕ)) :
    List (List ℕ) :=
  if (cpuFindMerge emb cls).1 < cls.length ∧ (cpuFindMerge emb cls).2 < cls.length then
    (cls.set (cpuFindMerge emb cls).1
      (cls.getD (cpuFindMerge emb cls).1 [] ++ cls.getD (cpuFindMerge emb cls).2 [])).eraseIdx
      (cpuFindMerge emb cls).2
  else cls

/-- The CPU merge loop `while (clusters.length > k)`; `fuel` bounds the
modelled iterations, `none` marks a loop that did not reach `k` clusters. -/
noncomputable def cpuHierLoop (emb : List (List JsNum)) (k : ℤ) :
    ℕ → List (List ℕ) → Option (List (List ℕ))
  | 0, cls => if (cls.length : ℤ) > k then none else some cls
  | fuel + 1, cls =>
      if (cls.length : ℤ) > k then cpuHierLoop emb k fuel (cpuMergeStep emb cls)
      else some cls

theorem cpuHierLoop_succ (emb : List (List JsNum)) (k : ℤ) (fuel : ℕ)
    (cls : List (List ℕ)) :
    cpuHierLoop emb k (fuel + 1) cls =
      if (cls.length : ℤ) > k then cpuHierLoop emb k fuel (cpuMergeStep emb cls)
      else some cls := rfl

/-- Arithmetic mean of the member vectors over the first row's dimension
(`topicModeling.ts` lines 370-388): out-of-range member indices are skipped
by the `if (emb)` guard and `undefined` entries by the explicit check. -/
noncomputable def hMeanCentroid (emb : List (List JsNum)) (docs : List ℕ) :
    List JsNum :=
  (List.range ((emb.getD 0 []).length)).map (fun d =>
    jdiv (docs.foldl (fun acc i =>
        if i < emb.length then
          (if d < (emb.getD i []).length then
            jadd acc ((emb.getD i []).getD d JsNum.nan)
          else acc)
        else acc) (val 0))
      (val docs.length))

/-- Final CPU cluster build (`topicModeling.ts` lines 368-408): the mean of
the member vectors, normalized WITHOUT a zero guard, and the mean coherence
(no empty-cluster guard on the division). -/
noncomputable def buildHCluster (emb : List (List JsNum)) (docs : List ℕ) : Cluster :=
  ⟨cpuNormalizeCentroid (hMeanCentroid emb docs),
    docs,
    jdiv (docs.foldl (fun acc i =>
        jadd acc (if i < emb.length then
          cosineSimilarityTM (emb.getD i [])
            (cpuNormalizeCentroid (hMeanCentroid emb docs))
        else val 0))
      (val 0)) (val docs.length)⟩

/-- `hierarchicalClustering` of `topicModeling.ts` (lines 308-409): one
singleton cluster per row, the merge loop, then the final build - with NO
sort at the end, clusters stay in active-list order. -/
noncomputable def hierarchicalClustering (emb : List (List JsNum)) (k : ℤ) :
    Option (List Cluster) :=
  (cpuHierLoop emb k emb.length ((List.range emb.length).map (fun i => [i]))).map
    (fun cls => cls.map (buildHCluster emb))

/-- A GPU hierarchical cluster entry (`ClusterData` of `webgpuSimilarity.ts`
lines 861-864). -/
structure GCluster where
  docs : List ℕ
  centroid : List JsNum

/-- The per-iteration `Float32Array` centroid buffer (`webgpuSimilarity.ts`
lines 889-894): cluster `i`'s centroid at offset `i * dim`, zero-filled. -/
noncomputable def flattenCentroids (cls : List GCluster) (dim : ℕ) : List JsNum :=
  (List.range (cls.length * dim)).map (fun t =>
    ((cls.getD (t / dim) ⟨[], []⟩).centroid).getD (t % dim) (val 0))

/-- The similarities buffer written by `hierarchicalShaderCode`
(`webgpuSimilarity.ts` lines 553-582): slot `p` holds the guarded cosine of
the two centroid rows whose indices the shader recovers from `p`. -/
noncomputable def hierSims (cls : List GCluster) (dim : ℕ) : List JsNum :=
  (List.range (cls.length * (cls.length - 1) / 2)).map (fun p =>
    cosineSimilarityWGSL (flattenCentroids cls dim) (flattenCentroids cls dim)
      ((recoverPair cls.length p).1 * dim) ((recoverPair cls.length p).2 * dim) dim)

/-- Host-side scan of the readback (`webgpuSimilarity.ts` lines 971-987):
row-major with a running `pairIdx`. -/
noncomputable def gpuFindMerge (sims : List JsNum) (len : ℕ) : ℕ × ℕ :=
  scanMaxPair ((pairList len).enum.map (fun q => (q.2, sims.getD q.1 JsNum.nan)))

/-- The merged member list (`mergedDocs`, `webgpuSimilarity.ts` line 994). -/
def hMergedDocs (cls : List GCluster) (m : ℕ × ℕ) : List ℕ :=
  (cls.getD m.1 ⟨[], []⟩).docs ++ (cls.getD m.2 ⟨[], []⟩).docs

/-- The merged centroid (`webgpuSimilarity.ts` lines 996-1015): `norm || 1`
normalized mean of the members' original vectors; the `if (emb)` guard
skips out-of-range members, entry reads past a short row are `undefined`. -/
noncomputable def hMergedCentroid (emb : List (List JsNum)) (dim : ℕ)
    (docs : List ℕ) : List JsNum :=
  gpuNormalizeCentroid ((List.range dim).map (fun d =>
    jdiv (docs.foldl (fun acc i =>
        if i < emb.length then jadd acc ((emb.getD i []).getD d JsNum.nan) else acc)
      (val 0)) (val docs.length)))

/-- One GPU merge step (`webgpuSimilarity.ts` lines 884-1026): dispatch the
shader, scan the similarities, merge the member lists and recompute the
merged centroid. -/
noncomputable def gpuMergeStep (emb : List (List JsNum)) (dim : ℕ)
    (cls : List GCluster) : List GCluster :=
  (cls.set (gpuFindMerge (hierSims cls dim) cls.length).1
    ⟨hMergedDocs cls (gpuFindMerge (hierSims cls dim) cls.length),
      hMergedCentroid emb dim
        (hMergedDocs cls (gpuFindMerge (hierSims cls dim) cls.length))⟩).eraseIdx
    (gpuFindMerge (hierSims cls dim) cls.length).2

/-- The GPU merge loop `while (clusters.length > k)`. -/
noncomputable def gpuHierLoop (emb : List (List JsNum)) (dim : ℕ) (k : ℤ) :
    ℕ → List GCluster → Option (List GCluster)
  | 0, cls => if (cls.length : ℤ) > k then none else some cls
  | fuel + 1, cls =>
      if (cls.length : ℤ) > k then
        gpuHierLoop emb dim k fuel (gpuMergeStep emb dim cls)
      else some cls

theorem gpuHierLoop_succ (emb : List (List JsNum)) (dim : ℕ) (k : ℤ) (fuel : ℕ)
    (cls : List GCluster) :
    gpuHierLoop emb dim k (fuel + 1) cls =
      if (cls.length : ℤ) > k then
        gpuHierLoop emb dim k fuel (gpuMergeStep emb dim cls)
      else some cls := rfl

/-- `hierarchicalClusteringGPU` of `webgpuSimilarity.ts` (lines 820-1052):
empty/zero-dimension short-circuit, one singleton cluster per row (centroid
a copy of the row), the merge loop, then the final build - coherence with
the empty-cluster guard - SORTED by member count descending. -/
noncomputable def hierarchicalClusteringGPU (emb : List (List JsNum)) (k : ℤ) :
    Option (List Cluster) :=
  if emb.length = 0 ∨ (emb.getD 0 []).length = 0 then some []
  else
    (gpuHierLoop emb ((emb.getD 0 []).length) k emb.length
        (emb.enum.map (fun q => ⟨[q.1], q.2⟩))).map
      (fun cls => sortBySize (cls.map (fun c =>
        Cluster.mk c.centroid c.docs (clusterCoherence emb c.centroid c.docs))))

/-! ## Claim theorems (with their witnesses and counterexamples) -/

/-- C4: for every `N ≥ 2` and linear pair index `p < N(N-1)/2`, the parallel
backend's index-recovery loop (`recoverPair`) yields exactly the pair that
the CPU backend's row-major triangular enumeration (`pairList`) holds at
position `p`: the mapping `p → (i, j)` is a bijection shared by both
backends. -/
theorem C4_linear_index_bijection (N p : ℕ) (_hN : 2 ≤ N)
    (hp : p < N * (N - 1) / 2) :
    (pairList N)[p]? = some (recoverPair N p) :=
  pairList_getElem? N p (by rw [tri_pred]; omega)

theorem C4_linear_index_bijection_witness :
    (2 ≤ 5 ∧ 7 < 5 * (5 - 1) / 2) ∧ (pairList 5)[7]? = some (recoverPair 5 7) :=
  ⟨⟨by decide, by decide⟩, C4_linear_index_bijection 5 7 (by decide) (by decide)⟩

/-- C2 (amended): the zero-norm rule - cosine similarity of vectors with an
exactly-zero norm is exactly `0.0` - holds for the public CPU
`cosineSimilarity` of `similarity.ts` and for the WGSL shader cosine, but
not on every code path: the internal CPU cosine used by the k-means and
hierarchical engines and the coherence computation has no guard and returns
NaN there (see the counterexample). -/
theorem C2_zero_norm_guarded_backends (a b : List ℝ) (hl : a.length = b.length)
    (hz : (∑ i ∈ Finset.range a.length, a.getD i 0 * a.getD i 0) = 0 ∨
          (∑ i ∈ Finset.range a.length, b.getD i 0 * b.getD i 0) = 0) :
    cosineSimilarity (a.map val) (b.map val) = .ok (val 0) ∧
    cosineSimilarityWGSL (a.map val) (b.map val) 0 0 a.length = val 0 := by
  have hz' : (Real.sqrt (∑ i ∈ Finset.range a.length, a.getD i 0 * a.getD i 0) *
      Real.sqrt (∑ i ∈ Finset.range a.length, b.getD i 0 * b.getD i 0)) = 0 := by
    rcases hz with h | h
    · rw [h, Real.sqrt_zero, zero_mul]
    · rw [h, Real.sqrt_zero, mul_zero]
  constructor
  · rw [cosineSimilarity_map_val a b hl, if_pos hz']
  · rw [cosineSimilarityWGSL_map_val a b a.length, if_pos hz']

theorem C2_zero_norm_guarded_backends_witness :
    (([(0 : ℝ)].length = [(5 : ℝ)].length ∧
        ((∑ i ∈ Finset.range [(0 : ℝ)].length,
            [(0 : ℝ)].getD i 0 * [(0 : ℝ)].getD i 0) = 0 ∨
         (∑ i ∈ Finset.range [(0 : ℝ)].length,
            [(5 : ℝ)].getD i 0 * [(5 : ℝ)].getD i 0) = 0)) ∧
      (cosineSimilarity ([(0 : ℝ)].map val) ([(5 : ℝ)].map val) = .ok (val 0) ∧
       cosineSimilarityWGSL ([(0 : ℝ)].map val) ([(5 : ℝ)].map val) 0 0
         [(0 : ℝ)].length = val 0)) :=
  ⟨⟨rfl, Or.inl (by simp)⟩,
    C2_zero_norm_guarded_backends [(0 : ℝ)] [(5 : ℝ)] rfl (Or.inl (by simp))⟩

/-- C2 (counterexample): the internal CPU cosine used by the clustering
engines and the coherence computation returns NaN - not `0.0` - on a
zero-norm input, so the zero-norm rule does not hold identically on every
code path. -/
theorem C2_internal_cosine_nan_counterexample :
    cosineSimilarityTM [val 0] [val 0] = JsNum.nan ∧ JsNum.nan ≠ val 0 := by
  constructor
  · have hf : jsumRange ([val (0 : ℝ)].length)
        (fun i => jmul (jor0 (ventry [val (0 : ℝ)] i)) (jor0 (ventry [val (0 : ℝ)] i))) =
        val 0 := by
      rw [show [val (0 : ℝ)].length = 1 from rfl, jsumRange_one]
      simp [ventry]
    rw [cosineSimilarityTM]
    simp only [hf]
    simp
  · exact fun h => JsNum.noConfusion h

/-- C10: `calculatePairwiseSimilarities` returns exactly the same result
(pair list and progress invocations) whether `excludeSelfComparison` is true
or false: the inner loop starts at `j = i + 1`, so `i === j` never holds and
the flag is a no-op at the interface. -/
theorem C10_exclude_self_flag_noop (emb : List (List JsNum)) :
    calculatePairwiseSimilarities emb true = calculatePairwiseSimilarities emb false := by
  rw [calculatePairwiseSimilarities, calculatePairwiseSimilarities,
    pwOuter_flag_irrelevant]

theorem countP_eq_one_of_nodup_mem {α : Type} [DecidableEq α] :
    ∀ {l : List α} {x : α}, l.Nodup → x ∈ l →
      l.countP (fun q => decide (q = x)) = 1 := by
  intro l
  induction l with
  | nil => intro x _ hm; exact absurd hm (List.not_mem_nil x)
  | cons y ys ih =>
      intro x hn hm
      rw [List.countP_cons]
      rcases List.mem_cons.mp hm with rfl | hmem
      · rw [List.countP_eq_zero.mpr, if_pos (by simp)]
        intro a ha
        simp only [decide_eq_true_eq]
        exact fun h => (List.nodup_cons.mp hn).1 (h ▸ ha)
      · rw [ih (List.nodup_cons.mp hn).2 hmem,
          if_neg (by
            simp only [decide_eq_true_eq]
            exact fun h => (List.nodup_cons.mp hn).1 (h ▸ hmem))]

/-- C3: on a non-empty vector set of equal-length rows of nonzero dimension,
`calculatePairwiseSimilarities` succeeds and returns exactly `N(N-1)/2`
pairs, each with `rowIndexA < rowIndexB < N`, and every unordered pair
`{i, j}` with `i < j < N` appears exactly once. -/
theorem C3_all_pairs_shape (emb : List (List JsNum)) (d : ℕ)
    (_hne : emb ≠ []) (hrows : ∀ v ∈ emb, v.length = d) (_hd : d ≠ 0) :
    ∃ pairs evs, calculatePairwiseSimilarities emb true = .ok (pairs, evs) ∧
      pairs.length = emb.length * (emb.length - 1) / 2 ∧
      (∀ p ∈ pairs, p.rowIndexA < p.rowIndexB ∧ p.rowIndexB < emb.length) ∧
      (∀ i j : ℕ, i < j → j < emb.length →
        (pairs.map (fun p => (p.rowIndexA, p.rowIndexB))).countP
          (fun q => decide (q = (i, j))) = 1) := by
  obtain ⟨st', hok, hmap⟩ :=
    pwOuter_proj emb (emb.length * (emb.length - 1) / 2) d hrows
      (List.range emb.length) (0, [], [])
      (fun i hm => List.mem_range.mp hm)
  rw [List.map_nil, List.nil_append, flatMap_innerRange_eq_pairList] at hmap
  refine ⟨sortByScore st'.2.2, st'.2.1 ++
      [(emb.length * (emb.length - 1) / 2, emb.length * (emb.length - 1) / 2)],
    ?_, ?_, ?_, ?_⟩
  · rw [calculatePairwiseSimilarities, hok]
  · rw [sortByScore, sortBy_length]
    have := congrArg List.length hmap
    rw [List.length_map, pairList_length, tri_pred] at this
    exact this
  · intro p hp
    have hmem : p ∈ st'.2.2 := (sortBy_perm _ _).mem_iff.mp hp
    have : (p.rowIndexA, p.rowIndexB) ∈ pairList emb.length := by
      rw [← hmap]
      exact List.mem_map_of_mem _ hmem
    exact (mem_pairList emb.length _ _).mp this
  · intro i j hij hj
    have hperm : List.Perm ((sortByScore st'.2.2).map
        (fun p => (p.rowIndexA, p.rowIndexB)))
        (st'.2.2.map (fun p => (p.rowIndexA, p.rowIndexB))) :=
      (sortBy_perm _ _).map _
    rw [hperm.countP_eq, hmap]
    exact countP_eq_one_of_nodup_mem (nodup_pairList _)
      ((mem_pairList _ _ _).mpr ⟨hij, hj⟩)

/-- Concrete three-row input used to witness C3 (the spec's own example
`[[1,0],[0,1],[1,0]]`). -/
noncomputable def pairsWitnessInput : List (List JsNum) :=
  [[val 1, val 0], [val 0, val 1], [val 1, val 0]]

theorem C3_all_pairs_shape_witness :
    (pairsWitnessInput ≠ [] ∧ (∀ v ∈ pairsWitnessInput, v.length = 2) ∧
      (2 : ℕ) ≠ 0) ∧
    (∃ pairs evs,
      calculatePairwiseSimilarities pairsWitnessInput true = .ok (pairs, evs) ∧
      pairs.length = pairsWitnessInput.length * (pairsWitnessInput.length - 1) / 2 ∧
      (∀ p ∈ pairs, p.rowIndexA < p.rowIndexB ∧
        p.rowIndexB < pairsWitnessInput.length) ∧
      (∀ i j : ℕ, i < j → j < pairsWitnessInput.length →
        (pairs.map (fun p => (p.rowIndexA, p.rowIndexB))).countP
          (fun q => decide (q = (i, j))) = 1)) :=
  ⟨⟨by simp [pairsWitnessInput], by simp [pairsWitnessInput], by decide⟩,
    C3_all_pairs_shape pairsWitnessInput 2 (by simp [pairsWitnessInput])
      (by simp [pairsWitnessInput]) (by decide)⟩

/-! ## K-means helper lemmas -/

theorem length_le_of_nodup_lt (used : List ℕ) (n : ℕ) (hnd : used.Nodup)
    (h : ∀ u ∈ used, u < n) : used.length ≤ n := by
  have h1 : used.toFinset.card = used.length := List.toFinset_card_of_nodup hnd
  have h2 : used.toFinset ⊆ Finset.range n := fun x hx =>
    Finset.mem_range.mpr (h x (List.mem_toFinset.mp hx))
  calc used.length = used.toFinset.card := h1.symm
    _ ≤ (Finset.range n).card := Finset.card_le_card h2
    _ = n := Finset.card_range n

/-- When `k` exceeds the number of rows, the seeding loop consumes the whole
random stream without ever reaching `k` centroids. -/
theorem seedLoop_none_of_lt (emb : List (List JsNum)) (k : ℤ)
    (hk : (emb.length : ℤ) < k) :
    ∀ (picks : List ℕ) (cents : List (List JsNum)) (used : List ℕ),
      cents.length = used.length → used.Nodup → (∀ u ∈ used, u < emb.length) →
      seedLoop emb k picks cents used = none := by
  intro picks
  induction picks with
  | nil =>
      intro cents used hlen hnd hsub
      rw [seedLoop, if_pos (by
        have := length_le_of_nodup_lt used emb.length hnd hsub
        omega)]
  | cons p ps ih =>
      intro cents used hlen hnd hsub
      rw [seedLoop, if_pos (by
        have := length_le_of_nodup_lt used emb.length hnd hsub
        omega)]
      by_cases hc : p ∉ used ∧ p < emb.length
      · rw [if_pos hc]
        refine ih _ _ (by simp [hlen]) ?_ ?_
        · rw [List.nodup_append]
          exact ⟨hnd, List.nodup_singleton p,
            fun x hx hx' => hc.1 ((List.mem_singleton.mp hx') ▸ hx)⟩
        · intro u hu
          rcases List.mem_append.mp hu with h | h
          · exact hsub u h
          · exact (List.mem_singleton.mp h) ▸ hc.2
      · rw [if_neg hc]
        exact ih _ _ hlen hnd hsub

/-- Once the guard `centroids.length < k` fails, the seeding loop exits
immediately with the current centroids. -/
theorem seedLoop_done (emb : List (List JsNum)) (k : ℤ) (picks : List ℕ)
    (cents : List (List JsNum)) (used : List ℕ)
    (h : ¬ ((cents.length : ℤ) < k)) :
    seedLoop emb k picks cents used = some cents := by
  cases picks with
  | nil => rw [seedLoop, if_neg h]
  | cons p ps => rw [seedLoop, if_neg h]

theorem assignOne_nonpos (cents : List (List JsNum)) (k : ℤ) (hk : k ≤ 0)
    (e : List JsNum) : assignOne cents k e = 0 := by
  rw [assignOne, Int.toNat_of_nonpos hk]
  rfl

/-- With `k ≤ 0`, `kMeansClustering` returns an empty cluster list on every
input: no validation error exists anywhere on the path. -/
theorem kMeansClustering_nonpos_k (emb : List (List JsNum)) (picks : List ℕ)
    (k : ℤ) (hk : k ≤ 0) : kMeansClustering emb k picks = some [] := by
  rw [kMeansClustering]
  by_cases h0 : emb.length = 0 ∨ (emb.getD 0 []).length = 0
  · rw [if_pos h0]
  · rw [if_neg h0]
    have hseed : seedLoop emb k picks [] [] = some [] :=
      seedLoop_done emb k picks [] [] (by simp; omega)
    have hA : emb.map (assignOne [] k) = List.replicate emb.length 0 := by
      rw [List.map_congr_left (fun e _ => assignOne_nonpos [] k hk e)]
      exact List.map_const' emb 0
    have hupd : cpuUpdateCentroids emb ((emb.getD 0 []).length)
        (List.replicate emb.length 0) k [] = [] := by
      rw [cpuUpdateCentroids, Int.toNat_of_nonpos hk]
      rfl
    have hloop : kmeansLoop emb k ((emb.getD 0 []).length) 100
        (List.replicate emb.length 0) [] = (List.replicate emb.length 0, []) := by
      rw [show (100 : ℕ) = 99 + 1 from rfl, kmeansLoop_succ, hA, if_pos rfl, hupd]
    have hbuild : buildClusters emb [] (List.replicate emb.length 0) k = [] := by
      rw [buildClusters, Int.toNat_of_nonpos hk]
      rfl
    simp only [hseed, hloop, hbuild]

theorem length_filterMap_ifLt {β : Type} (n : ℕ) (f : ℕ → β) :
    ∀ l : List ℕ, (∀ c ∈ l, c < n) →
      (l.filterMap (fun c => if c < n then some (f c) else none)).length = l.length := by
  intro l
  induction l with
  | nil => intro _; rfl
  | cons c cs ih =>
      intro h
      rw [List.filterMap_cons, if_pos (h c (List.mem_cons_self c cs)),
        List.length_cons, ih (fun c' hc' => h c' (List.mem_cons_of_mem c hc'))]
      rfl

/-- C5 (code bug): with `k = 2` but only one row, the random seeding loop of
both k-means backends never terminates: whatever finite prefix of the random
stream is consumed, seeding has still not produced `k` centroids, so the
clustering call hangs instead of degrading to fewer clusters. -/
theorem C5_seeding_never_terminates (picks : List ℕ) :
    seedLoop [[val 1]] 2 picks [] [] = none ∧
      kMeansClustering [[val 1]] 2 picks = none := by
  have h : seedLoop [[val 1]] 2 picks [] [] = none :=
    seedLoop_none_of_lt [[val 1]] 2 (by simp) picks [] [] rfl List.nodup_nil
      (by simp)
  refine ⟨h, ?_⟩
  rw [kMeansClustering, if_neg (by simp)]
  simp only [h]

/-- C7 (amended): the GPU k-means centroid update leaves a zero-norm mean
vector unnormalized (it divides by `norm || 1`), so its components are
unchanged; the CPU update has no such guard and produces NaN components
(see the counterexample). -/
theorem C7_gpu_zero_norm_unnormalized (pts : List (List JsNum)) (dim : ℕ)
    (h : centroidNorm (colMeanK pts dim) = val 0) :
    gpuNormalizeCentroid (colMeanK pts dim) = colMeanK pts dim := by
  rw [gpuNormalizeCentroid]
  simp [h]

theorem colMeanK_pm_one : colMeanK [[val (1 : ℝ)], [val (-1)]] 1 = [val 0] := by
  rw [colMeanK, show List.range 1 = [0] from rfl, List.map_cons, List.map_nil,
    List.foldl_cons, List.foldl_cons, List.foldl_nil]
  norm_num [ventry, jdiv]

theorem centroidNorm_zero_vec : centroidNorm [val (0 : ℝ)] = val 0 := by
  rw [centroidNorm, List.foldl_cons, List.foldl_nil]
  norm_num

theorem C7_gpu_zero_norm_unnormalized_witness :
    centroidNorm (colMeanK [[val (1 : ℝ)], [val (-1)]] 1) = val 0 ∧
      gpuNormalizeCentroid (colMeanK [[val (1 : ℝ)], [val (-1)]] 1) =
        colMeanK [[val (1 : ℝ)], [val (-1)]] 1 :=
  ⟨by rw [colMeanK_pm_one, centroidNorm_zero_vec],
    C7_gpu_zero_norm_unnormalized [[val (1 : ℝ)], [val (-1)]] 1
      (by rw [colMeanK_pm_one, centroidNorm_zero_vec])⟩

/-- C7 (counterexample): the CPU k-means centroid update divides a zero-norm
mean by zero: for the single cluster of members `[1]` and `[-1]` (mean `[0]`,
norm `0`) the updated centroid is `[NaN]`, not an unnormalized vector. -/
theorem C7_cpu_centroid_nan_counterexample :
    cpuUpdateCentroids [[val 1], [val (-1)]] 1 [0, 0] 1 [[val 1]] =
      [[JsNum.nan]] := by
  have hpts : clusterPoints [[val (1 : ℝ)], [val (-1)]] [0, 0] 0 =
      [[val 1], [val (-1)]] := by
    simp [clusterPoints, List.enum, List.enumFrom]
  rw [cpuUpdateCentroids, show ((1 : ℤ)).toNat = 1 from rfl,
    show List.range 1 = [0] from rfl, List.foldl_cons, List.foldl_nil,
    if_pos (by rw [hpts]; simp)]
  rw [hpts, colMeanK_pm_one, cpuNormalizeCentroid, centroidNorm_zero_vec]
  simp

/-- C8 (amended): no `InvalidClusterCount` validation exists on the k-means
path: a call with `k ≤ 0` does not fail, it runs to completion and returns
an empty cluster list. -/
theorem C8_no_invalid_k_error (emb : List (List JsNum)) (picks : List ℕ)
    (k : ℤ) (hk : k ≤ 0) :
    kMeansClustering emb k picks = some [] ∧ kMeansClustering emb k picks ≠ none :=
  ⟨kMeansClustering_nonpos_k emb picks k hk, by
    rw [kMeansClustering_nonpos_k emb picks k hk]
    exact fun h => Option.noConfusion h⟩

theorem C8_no_invalid_k_error_witness :
    ((0 : ℤ) ≤ 0 ∧
      (kMeansClustering [[val 1]] 0 [] = some [] ∧
        kMeansClustering [[val 1]] 0 [] ≠ none)) :=
  ⟨le_rfl, C8_no_invalid_k_error [[val 1]] [] 0 le_rfl⟩

/-- C8 (counterexample): `kMeansClustering` with `k = 0` returns a normal
(empty) result instead of failing with an `InvalidClusterCount` error before
computation. -/
theorem C8_k_zero_returns_counterexample :
    kMeansClustering [[val 1]] 0 [] = some [] :=
  kMeansClustering_nonpos_k [[val 1]] [] 0 le_rfl

/-- C6 (amended): both k-means backends assemble one cluster for every id
`0..k-1` whose centroid exists, regardless of member count: with the usual
`centroids.length = k`, the returned cluster count is exactly `k`, and
clusters with empty member sets are included rather than dropped (see the
counterexample). -/
theorem C6_cluster_count_is_k (emb : List (List JsNum))
    (cents : List (List JsNum)) (assigns : List ℕ) (k : ℤ)
    (h : cents.length = k.toNat) :
    (buildClusters emb cents assigns k).length = k.toNat := by
  rw [buildClusters, sortBySize, sortBy_length,
    length_filterMap_ifLt cents.length
      (fun c => Cluster.mk (cents.getD c []) (clusterDocs assigns c)
        (clusterCoherence emb (cents.getD c []) (clusterDocs assigns c)))
      (List.range k.toNat) (fun c hc => h ▸ List.mem_range.mp hc),
    List.length_range]

theorem C6_cluster_count_is_k_witness :
    ([[val (1 : ℝ)]].length = (1 : ℤ).toNat ∧
      (buildClusters [[val 1], [val 1]] [[val 1]] [0, 0] 1).length =
        (1 : ℤ).toNat) :=
  ⟨rfl, C6_cluster_count_is_k [[val 1], [val 1]] [[val 1]] [0, 0] 1 rfl⟩

theorem cosTM_one_one : cosineSimilarityTM [val (1 : ℝ)] [val 1] = val 1 := by
  have hs : jsumRange [val (1 : ℝ)].length
      (fun i => jmul (jor0 (ventry [val (1 : ℝ)] i)) (jor0 (ventry [val (1 : ℝ)] i))) =
      val 1 := by
    rw [show [val (1 : ℝ)].length = 1 from rfl, jsumRange_one]
    norm_num [ventry]
  rw [cosineSimilarityTM]
  simp only [hs]
  norm_num

theorem assignOne_ones : assignOne [[val (1 : ℝ)], [val 1]] 2 [val 1] = 0 := by
  rw [assignOne, show ((2 : ℤ)).toNat = 2 from rfl,
    show List.range 2 = [0, 1] from rfl, List.foldl_cons, List.foldl_cons,
    List.foldl_nil]
  simp [cosTM_one_one]

theorem clusterPoints_ones_0 :
    clusterPoints [[val (1 : ℝ)], [val 1]] [0, 0] 0 = [[val 1], [val 1]] := by
  simp [clusterPoints, List.enum, List.enumFrom]

theorem clusterPoints_ones_1 :
    clusterPoints [[val (1 : ℝ)], [val 1]] [0, 0] 1 = [] := by
  simp [clusterPoints, List.enum, List.enumFrom]

theorem colMeanK_ones : colMeanK [[val (1 : ℝ)], [val 1]] 1 = [val 1] := by
  rw [colMeanK, show List.range 1 = [0] from rfl, List.map_cons, List.map_nil,
    List.foldl_cons, List.foldl_cons, List.foldl_nil]
  norm_num [ventry, jdiv]

theorem centroidNorm_one_vec : centroidNorm [val (1 : ℝ)] = val 1 := by
  rw [centroidNorm, List.foldl_cons, List.foldl_nil]
  norm_num

theorem cpuUpdate_ones :
    cpuUpdateCentroids [[val (1 : ℝ)], [val 1]] 1 [0, 0] 2 [[val 1], [val 1]] =
      [[val 1], [val 1]] := by
  rw [cpuUpdateCentroids, show ((2 : ℤ)).toNat = 2 from rfl,
    show List.range 2 = [0, 1] from rfl, List.foldl_cons, List.foldl_cons,
    List.foldl_nil]
  simp [clusterPoints_ones_0, clusterPoints_ones_1, colMeanK_ones,
    cpuNormalizeCentroid, centroidNorm_one_vec]

theorem seedLoop_ones :
    seedLoop [[val (1 : ℝ)], [val 1]] 2 [0, 1] [] [] =
      some [[val 1], [val 1]] := by
  rw [seedLoop, if_pos (by norm_num), if_pos (by norm_num)]
  rw [seedLoop, if_pos (by norm_num), if_pos (by norm_num [List.mem_singleton])]
  rw [seedLoop, if_neg (by norm_num)]
  rfl

theorem kmeansLoop_ones :
    kmeansLoop [[val (1 : ℝ)], [val 1]] 2 1 100 [0, 0] [[val 1], [val 1]] =
      ([0, 0], [[val 1], [val 1]]) := by
  rw [show (100 : ℕ) = 99 + 1 from rfl, kmeansLoop_succ]
  have hmap : [[val (1 : ℝ)], [val 1]].map (assignOne [[val (1 : ℝ)], [val 1]] 2) =
      [0, 0] := by
    rw [List.map_cons, List.map_cons, List.map_nil, assignOne_ones]
  rw [hmap, if_pos rfl, cpuUpdate_ones]

/-- C6 (counterexample): on two identical rows with `k = 2` (seeds rows 0
and 1), CPU k-means returns TWO clusters - `{0, 1}` and the empty cluster -
so clusters with empty member sets are not dropped from the output. -/
theorem C6_empty_cluster_kept_counterexample :
    (kMeansClustering [[val (1 : ℝ)], [val 1]] 2 [0, 1]).map
      (fun cls => cls.map Cluster.documentIndices) = some [[0, 1], []] := by
  rw [kMeansClustering, if_neg (by simp)]
  simp only [seedLoop_ones]
  rw [show List.replicate ([[val (1 : ℝ)], [val 1]]).length 0 = [0, 0] from rfl,
    show (([[val (1 : ℝ)], [val 1]] : List (List JsNum)).getD 0 []).length = 1 from rfl]
  simp only [kmeansLoop_ones]
  rw [buildClusters, show ((2 : ℤ)).toNat = 2 from rfl,
    show List.range 2 = [0, 1] from rfl]
  rw [List.filterMap_cons, if_pos (by simp), List.filterMap_cons,
    if_pos (by simp), List.filterMap_nil]
  have hd0 : clusterDocs [0, 0] 0 = [0, 1] := by
    simp [clusterDocs, List.enum, List.enumFrom]
  have hd1 : clusterDocs [0, 0] 1 = [] := by
    simp [clusterDocs, List.enum, List.enumFrom]
  rw [hd0, hd1]
  simp [sortBySize, sortBy, insertBy]

/-- C9 (amended): a successful probe is terminal - once a device is cached,
no later call probes again and the parallel path is always selected - but a
FAILED probe is not terminal: the very next engine call probes again, and a
later successful probe switches the process to the parallel path (see the
counterexample). -/
theorem C9_probe_success_terminal (s : GpuState) (p : ProbeOutcome)
    (h : s.device.isSome = true) :
    initializeWebGPU s p = (s, true, false) ∧
      performClusteringSelect ⟨some (), true⟩ p = (⟨some (), true⟩, true, false) := by
  constructor
  · rw [initializeWebGPU.eq_def, if_pos h]
  · rfl

theorem C9_probe_success_terminal_witness :
    ((GpuState.mk (some ()) true).device.isSome = true ∧
      (initializeWebGPU ⟨some (), true⟩ .deviceFail = (⟨some (), true⟩, true, false) ∧
        performClusteringSelect ⟨some (), true⟩ .deviceFail =
          (⟨some (), true⟩, true, false))) :=
  ⟨rfl, C9_probe_success_terminal ⟨some (), true⟩ .deviceFail rfl⟩

/-- C9 (counterexample): the availability state is NOT terminal after a
failed probe.  From the uninitialized state, a clustering call whose probe
fails selects the CPU path and leaves the state unchanged; a second call
probes AGAIN (two probes in one process) and, succeeding, selects the
parallel path - contradicting "probing is attempted at most once" and
"a failed probe permanently selects the CPU path". -/
theorem C9_failed_probe_not_terminal_counterexample :
    performClusteringSelect ⟨none, false⟩ .deviceFail =
        (⟨none, false⟩, false, true) ∧
      performClusteringSelect ⟨none, false⟩ .ok = (⟨some (), true⟩, true, true) :=
  ⟨rfl, rfl⟩

/-! ## Evaluation of the hierarchical backends on a concrete 4-row input -/

theorem jsumRange_two (f : ℕ → JsNum) :
    jsumRange 2 f = jadd (jadd (val 0) (f 0)) (f 1) := rfl

theorem ventry_pair_0 (x y : JsNum) : ventry [x, y] 0 = x := rfl

theorem ventry_pair_1 (x y : JsNum) : ventry [x, y] 1 = y := rfl

/-- The internal cosine of two unit 2-d real vectors is their dot product. -/
theorem cosTM_unit2 (x0 x1 y0 y1 : ℝ) (hx : x0 * x0 + x1 * x1 = 1)
    (hy : y0 * y0 + y1 * y1 = 1) :
    cosineSimilarityTM [val x0, val x1] [val y0, val y1] =
      val (x0 * y0 + x1 * y1) := by
  rw [cosineSimilarityTM]
  simp only [show [val x0, val x1].length = 2 from rfl, jsumRange_two,
    ventry_pair_0, ventry_pair_1, jor0_val, jmul_val_val, jadd_val_val]
  rw [show (0 : ℝ) + x0 * x0 + x1 * x1 = 1 by rw [zero_add]; exact hx,
    show (0 : ℝ) + y0 * y0 + y1 * y1 = 1 by rw [zero_add]; exact hy,
    jsqrt_one, jmul_val_val, one_mul, jdiv_val_one, zero_add]

/-- The WGSL shader cosine of two unit 2-d rows of a flat buffer is their
dot product. -/
theorem cosWGSL_unit2 (buf : List JsNum) (oa ob : ℕ) (x0 x1 y0 y1 : ℝ)
    (ha0 : buf.getD (oa + 0) (val 0) = val x0)
    (ha1 : buf.getD (oa + 1) (val 0) = val x1)
    (hb0 : buf.getD (ob + 0) (val 0) = val y0)
    (hb1 : buf.getD (ob + 1) (val 0) = val y1)
    (hx : x0 * x0 + x1 * x1 = 1) (hy : y0 * y0 + y1 * y1 = 1) :
    cosineSimilarityWGSL buf buf oa ob 2 = val (x0 * y0 + x1 * y1) := by
  rw [cosineSimilarityWGSL]
  have hna : jsumRange 2
      (fun i => jmul (buf.getD (oa + i) (val 0)) (buf.getD (oa + i) (val 0))) =
      val 1 := by
    rw [jsumRange_two]
    simp only [ha0, ha1, jmul_val_val, jadd_val_val]
    rw [show (0 : ℝ) + x0 * x0 + x1 * x1 = 1 by rw [zero_add]; exact hx]
  have hnb : jsumRange 2
      (fun i => jmul (buf.getD (ob + i) (val 0)) (buf.getD (ob + i) (val 0))) =
      val 1 := by
    rw [jsumRange_two]
    simp only [hb0, hb1, jmul_val_val, jadd_val_val]
    rw [show (0 : ℝ) + y0 * y0 + y1 * y1 = 1 by rw [zero_add]; exact hy]
  have hdp : jsumRange 2
      (fun i => jmul (buf.getD (oa + i) (val 0)) (buf.getD (ob + i) (val 0))) =
      val (x0 * y0 + x1 * y1) := by
    rw [jsumRange_two]
    simp only [ha0, ha1, hb0, hb1, jmul_val_val, jadd_val_val]
    rw [zero_add]
  rw [hdp, hna, hnb, jsqrt_one, jmul_val_val, one_mul]
  rw [if_neg (by simp), jdiv_val_one]

/-- The concrete four-row, two-dimensional input on which the two
hierarchical backends diverge: four unit vectors with rational coordinates
and pairwise-rational cosines. -/
noncomputable def hierEmb : List (List JsNum) :=
  [[val 1, val 0],
   [val (7 / 25), val (24 / 25)],
   [val (-77 / 85), val (36 / 85)],
   [val 0, val (-1)]]

theorem unit_a : (1 : ℝ) * 1 + 0 * 0 = 1 := by norm_num

theorem unit_b : (7 / 25 : ℝ) * (7 / 25) + 24 / 25 * (24 / 25) = 1 := by norm_num

theorem unit_c : (-77 / 85 : ℝ) * (-77 / 85) + 36 / 85 * (36 / 85) = 1 := by
  norm_num

theorem unit_d : (0 : ℝ) * 0 + (-1) * (-1) = 1 := by norm_num

theorem unit_m : (4 / 5 : ℝ) * (4 / 5) + 3 / 5 * (3 / 5) = 1 := by norm_num

theorem cosTM_ab :
    cosineSimilarityTM [val (1 : ℝ), val 0] [val (7 / 25), val (24 / 25)] =
      val (7 / 25) := by
  rw [cosTM_unit2 _ _ _ _ unit_a unit_b]
  norm_num

theorem cosTM_ac :
    cosineSimilarityTM [val (1 : ℝ), val 0] [val (-77 / 85), val (36 / 85)] =
      val (-77 / 85) := by
  rw [cosTM_unit2 _ _ _ _ unit_a unit_c]
  norm_num

theorem cosTM_ad :
    cosineSimilarityTM [val (1 : ℝ), val 0] [val 0, val (-1)] = val 0 := by
  rw [cosTM_unit2 _ _ _ _ unit_a unit_d]
  norm_num

theorem cosTM_bc :
    cosineSimilarityTM [val (7 / 25 : ℝ), val (24 / 25)]
      [val (-77 / 85), val (36 / 85)] = val (13 / 85) := by
  rw [cosTM_unit2 _ _ _ _ unit_b unit_c]
  norm_num

theorem cosTM_bd :
    cosineSimilarityTM [val (7 / 25 : ℝ), val (24 / 25)] [val 0, val (-1)] =
      val (-24 / 25) := by
  rw [cosTM_unit2 _ _ _ _ unit_b unit_d]
  norm_num

theorem cosTM_cd :
    cosineSimilarityTM [val (-77 / 85 : ℝ), val (36 / 85)] [val 0, val (-1)] =
      val (-36 / 85) := by
  rw [cosTM_unit2 _ _ _ _ unit_c unit_d]
  norm_num

theorem avgLinkage_single (emb : List (List JsNum)) (x y : ℕ)
    (hx : x < emb.length) (hy : y < emb.length) (s : ℝ)
    (h : cosineSimilarityTM (emb.getD x []) (emb.getD y []) = val s) :
    avgLinkage emb [x] [y] = val s := by
  rw [avgLinkage]
  rw [show ([x].flatMap (fun a => [y].map (fun b => (a, b)))) = [(x, y)] from rfl]
  rw [List.filter_cons, if_pos (by simp [hx, hy]), List.filter_nil,
    List.foldl_cons, List.foldl_nil, h, jadd_val_val, zero_add]
  rw [List.length_cons, List.length_nil]
  rw [show ((val ((0 : ℕ) + 1 : ℕ)) : JsNum) = val 1 by norm_num]
  exact jdiv_val_one s

theorem avgLinkage_two_one (emb : List (List JsNum)) (x1 x2 y : ℕ)
    (hx1 : x1 < emb.length) (hx2 : x2 < emb.length) (hy : y < emb.length)
    (s1 s2 : ℝ)
    (h1 : cosineSimilarityTM (emb.getD x1 []) (emb.getD y []) = val s1)
    (h2 : cosineSimilarityTM (emb.getD x2 []) (emb.getD y []) = val s2) :
    avgLinkage emb [x1, x2] [y] = val ((0 + s1 + s2) / 2) := by
  rw [avgLinkage]
  rw [show ([x1, x2].flatMap (fun a => [y].map (fun b => (a, b)))) =
    [(x1, y), (x2, y)] from rfl]
  rw [List.filter_cons, if_pos (by simp [hx1, hy]), List.filter_cons,
    if_pos (by simp [hx2, hy]), List.filter_nil,
    List.foldl_cons, List.foldl_cons, List.foldl_nil, h1, h2,
    jadd_val_val, jadd_val_val]
  rw [List.length_cons, List.length_cons, List.length_nil]
  rw [show ((val ((0 : ℕ) + 1 + 1 : ℕ)) : JsNum) = val 2 by norm_num]
  rw [jdiv_val_val_of_ne (by norm_num)]

theorem pairList_4 : pairList 4 = [(0, 1), (0, 2), (0, 3), (1, 2), (1, 3), (2, 3)] := by
  decide

theorem pairList_3 : pairList 3 = [(0, 1), (0, 2), (1, 2)] := by decide

theorem hierEmb_len : hierEmb.length = 4 := rfl

theorem avg_ab : avgLinkage hierEmb [0] [1] = val (7 / 25 : ℝ) :=
  avgLinkage_single hierEmb 0 1 (by norm_num [hierEmb_len]) (by norm_num [hierEmb_len])
    _ cosTM_ab

theorem avg_ac : avgLinkage hierEmb [0] [2] = val (-77 / 85 : ℝ) :=
  avgLinkage_single hierEmb 0 2 (by norm_num [hierEmb_len]) (by norm_num [hierEmb_len])
    _ cosTM_ac

theorem avg_ad : avgLinkage hierEmb [0] [3] = val (0 : ℝ) :=
  avgLinkage_single hierEmb 0 3 (by norm_num [hierEmb_len]) (by norm_num [hierEmb_len])
    _ cosTM_ad

theorem avg_bc : avgLinkage hierEmb [1] [2] = val (13 / 85 : ℝ) :=
  avgLinkage_single hierEmb 1 2 (by norm_num [hierEmb_len]) (by norm_num [hierEmb_len])
    _ cosTM_bc

theorem avg_bd : avgLinkage hierEmb [1] [3] = val (-24 / 25 : ℝ) :=
  avgLinkage_single hierEmb 1 3 (by norm_num [hierEmb_len]) (by norm_num [hierEmb_len])
    _ cosTM_bd

theorem avg_cd : avgLinkage hierEmb [2] [3] = val (-36 / 85 : ℝ) :=
  avgLinkage_single hierEmb 2 3 (by norm_num [hierEmb_len]) (by norm_num [hierEmb_len])
    _ cosTM_cd

theorem avg_ab_c : avgLinkage hierEmb [0, 1] [2] = val (-32 / 85 : ℝ) := by
  rw [avgLinkage_two_one hierEmb 0 1 2 (by norm_num [hierEmb_len])
    (by norm_num [hierEmb_len]) (by norm_num [hierEmb_len]) _ _ cosTM_ac cosTM_bc]
  norm_num

theorem avg_ab_d : avgLinkage hierEmb [0, 1] [3] = val (-12 / 25 : ℝ) := by
  rw [avgLinkage_two_one hierEmb 0 1 3 (by norm_num [hierEmb_len])
    (by norm_num [hierEmb_len]) (by norm_num [hierEmb_len]) _ _ cosTM_ad cosTM_bd]
  norm_num

theorem cpuFind_step1 : cpuFindMerge hierEmb [[0], [1], [2], [3]] = (0, 1) := by
  rw [cpuFindMerge, show ([[0], [1], [2], [3]] : List (List ℕ)).length = 4 from rfl,
    pairList_4]
  simp only [List.map_cons, List.map_nil,
    show ([[0], [1], [2], [3]] : List (List ℕ)).getD 0 [] = [0] from rfl,
    show ([[0], [1], [2], [3]] : List (List ℕ)).getD 1 [] = [1] from rfl,
    show ([[0], [1], [2], [3]] : List (List ℕ)).getD 2 [] = [2] from rfl,
    show ([[0], [1], [2], [3]] : List (List ℕ)).getD 3 [] = [3] from rfl,
    avg_ab, avg_ac, avg_ad, avg_bc, avg_bd, avg_cd]
  rw [scanMaxPair]
  simp only [List.foldl_cons, List.foldl_nil]
  norm_num

theorem cpuStep1 : cpuMergeStep hierEmb [[0], [1], [2], [3]] = [[0, 1], [2], [3]] := by
  rw [cpuMergeStep]
  simp [cpuFind_step1]

theorem cpuFind_step2 : cpuFindMerge hierEmb [[0, 1], [2], [3]] = (0, 1) := by
  rw [cpuFindMerge, show ([[0, 1], [2], [3]] : List (List ℕ)).length = 3 from rfl,
    pairList_3]
  simp only [List.map_cons, List.map_nil,
    show ([[0, 1], [2], [3]] : List (List ℕ)).getD 0 [] = [0, 1] from rfl,
    show ([[0, 1], [2], [3]] : List (List ℕ)).getD 1 [] = [2] from rfl,
    show ([[0, 1], [2], [3]] : List (List ℕ)).getD 2 [] = [3] from rfl,
    avg_ab_c, avg_ab_d, avg_cd]
  rw [scanMaxPair]
  simp only [List.foldl_cons, List.foldl_nil]
  norm_num

theorem cpuStep2 : cpuMergeStep hierEmb [[0, 1], [2], [3]] = [[0, 1, 2], [3]] := by
  rw [cpuMergeStep]
  simp [cpuFind_step2]

theorem cpuHier_run :
    cpuHierLoop hierEmb 2 4 [[0], [1], [2], [3]] = some [[0, 1, 2], [3]] := by
  rw [show (4 : ℕ) = 3 + 1 from rfl, cpuHierLoop_succ, if_pos (by norm_num), cpuStep1,
    show (3 : ℕ) = 2 + 1 from rfl, cpuHierLoop_succ, if_pos (by norm_num), cpuStep2,
    show (2 : ℕ) = 1 + 1 from rfl, cpuHierLoop_succ, if_neg (by norm_num)]

theorem buildHCluster_docs (emb : List (List JsNum)) (docs : List ℕ) :
    (buildHCluster emb docs).documentIndices = docs := rfl

theorem cpuHier_result :
    (hierarchicalClustering hierEmb 2).map
      (fun cls => cls.map Cluster.documentIndices) = some [[0, 1, 2], [3]] := by
  rw [hierarchicalClustering, hierEmb_len,
    show (List.range 4).map (fun i => [i]) = [[0], [1], [2], [3]] from rfl,
    cpuHier_run]
  simp [buildHCluster_docs]

theorem getD_map_range (n p : ℕ) (hp : p < n) (f : ℕ → JsNum) (d : JsNum) :
    ((List.range n).map f).getD p d = f p := by
  rw [List.getD_eq_getElem?_getD, List.getElem?_map, List.getElem?_range hp]
  rfl

/-- The GPU backend's initial cluster list on `hierEmb`. -/
noncomputable def gcls0 : List GCluster :=
  [⟨[0], [val 1, val 0]⟩,
   ⟨[1], [val (7 / 25), val (24 / 25)]⟩,
   ⟨[2], [val (-77 / 85), val (36 / 85)]⟩,
   ⟨[3], [val 0, val (-1)]⟩]

/-- The GPU cluster list after the first merge (centroid `[4/5, 3/5]` is the
normalized mean of rows 0 and 1). -/
noncomputable def gcls1 : List GCluster :=
  [⟨[0, 1], [val (4 / 5), val (3 / 5)]⟩,
   ⟨[2], [val (-77 / 85), val (36 / 85)]⟩,
   ⟨[3], [val 0, val (-1)]⟩]

/-- The flat centroid buffer of the four initial clusters. -/
noncomputable def gflatL0 : List JsNum :=
  [val 1, val 0, val (7 / 25), val (24 / 25), val (-77 / 85), val (36 / 85),
   val 0, val (-1)]

/-- The flat centroid buffer after the first merge. -/
noncomputable def gflatL1 : List JsNum :=
  [val (4 / 5), val (3 / 5), val (-77 / 85), val (36 / 85), val 0, val (-1)]

theorem gflat0 : flattenCentroids gcls0 2 = gflatL0 := rfl

theorem gflat1 : flattenCentroids gcls1 2 = gflatL1 := rfl

theorem gs0 : (hierSims gcls0 2).getD 0 JsNum.nan = val (7 / 25 : ℝ) := by
  rw [hierSims, show gcls0.length = 4 from rfl,
    show (4 * (4 - 1) / 2 : ℕ) = 6 from rfl, getD_map_range 6 0 (by norm_num)]
  rw [show recoverPair 4 0 = (0, 1) from by decide]
  rw [show (((0, 1) : ℕ × ℕ)).1 * 2 = 0 from rfl,
    show (((0, 1) : ℕ × ℕ)).2 * 2 = 2 from rfl, gflat0]
  rw [cosWGSL_unit2 gflatL0 0 2 1 0 (7 / 25) (24 / 25) rfl rfl rfl rfl unit_a unit_b]
  norm_num

theorem gs1 : (hierSims gcls0 2).getD 1 JsNum.nan = val (-77 / 85 : ℝ) := by
  rw [hierSims, show gcls0.length = 4 from rfl,
    show (4 * (4 - 1) / 2 : ℕ) = 6 from rfl, getD_map_range 6 1 (by norm_num)]
  rw [show recoverPair 4 1 = (0, 2) from by decide]
  rw [show (((0, 2) : ℕ × ℕ)).1 * 2 = 0 from rfl,
    show (((0, 2) : ℕ × ℕ)).2 * 2 = 4 from rfl, gflat0]
  rw [cosWGSL_unit2 gflatL0 0 4 1 0 (-77 / 85) (36 / 85) rfl rfl rfl rfl unit_a unit_c]
  norm_num

theorem gs2 : (hierSims gcls0 2).getD 2 JsNum.nan = val (0 : ℝ) := by
  rw [hierSims, show gcls0.length = 4 from rfl,
    show (4 * (4 - 1) / 2 : ℕ) = 6 from rfl, getD_map_range 6 2 (by norm_num)]
  rw [show recoverPair 4 2 = (0, 3) from by decide]
  rw [show (((0, 3) : ℕ × ℕ)).1 * 2 = 0 from rfl,
    show (((0, 3) : ℕ × ℕ)).2 * 2 = 6 from rfl, gflat0]
  rw [cosWGSL_unit2 gflatL0 0 6 1 0 0 (-1) rfl rfl rfl rfl unit_a unit_d]
  norm_num

theorem gs3 : (hierSims gcls0 2).getD 3 JsNum.nan = val (13 / 85 : ℝ) := by
  rw [hierSims, show gcls0.length = 4 from rfl,
    show (4 * (4 - 1) / 2 : ℕ) = 6 from rfl, getD_map_range 6 3 (by norm_num)]
  rw [show recoverPair 4 3 = (1, 2) from by decide]
  rw [show (((1, 2) : ℕ × ℕ)).1 * 2 = 2 from rfl,
    show (((1, 2) : ℕ × ℕ)).2 * 2 = 4 from rfl, gflat0]
  rw [cosWGSL_unit2 gflatL0 2 4 (7 / 25) (24 / 25) (-77 / 85) (36 / 85) rfl rfl rfl rfl
    unit_b unit_c]
  norm_num

theorem gs4 : (hierSims gcls0 2).getD 4 JsNum.nan = val (-24 / 25 : ℝ) := by
  rw [hierSims, show gcls0.length = 4 from rfl,
    show (4 * (4 - 1) / 2 : ℕ) = 6 from rfl, getD_map_range 6 4 (by norm_num)]
  rw [show recoverPair 4 4 = (1, 3) from by decide]
  rw [show (((1, 3) : ℕ × ℕ)).1 * 2 = 2 from rfl,
    show (((1, 3) : ℕ × ℕ)).2 * 2 = 6 from rfl, gflat0]
  rw [cosWGSL_unit2 gflatL0 2 6 (7 / 25) (24 / 25) 0 (-1) rfl rfl rfl rfl unit_b unit_d]
  norm_num

theorem gs5 : (hierSims gcls0 2).getD 5 JsNum.nan = val (-36 / 85 : ℝ) := by
  rw [hierSims, show gcls0.length = 4 from rfl,
    show (4 * (4 - 1) / 2 : ℕ) = 6 from rfl, getD_map_range 6 5 (by norm_num)]
  rw [show recoverPair 4 5 = (2, 3) from by decide]
  rw [show (((2, 3) : ℕ × ℕ)).1 * 2 = 4 from rfl,
    show (((2, 3) : ℕ × ℕ)).2 * 2 = 6 from rfl, gflat0]
  rw [cosWGSL_unit2 gflatL0 4 6 (-77 / 85) (36 / 85) 0 (-1) rfl rfl rfl rfl unit_c unit_d]
  norm_num

theorem gfind1 : gpuFindMerge (hierSims gcls0 2) 4 = (0, 1) := by
  rw [gpuFindMerge, pairList_4,
    show List.enum [((0 : ℕ), (1 : ℕ)), (0, 2), (0, 3), (1, 2), (1, 3), (2, 3)] =
      [(0, (0, 1)), (1, (0, 2)), (2, (0, 3)), (3, (1, 2)), (4, (1, 3)), (5, (2, 3))]
      from rfl]
  simp only [List.map_cons, List.map_nil, gs0, gs1, gs2, gs3, gs4, gs5]
  rw [scanMaxPair]
  simp only [List.foldl_cons, List.foldl_nil]
  norm_num

theorem gmerged_mean01 : hMergedCentroid hierEmb 2 [0, 1] =
    [val (4 / 5 : ℝ), val (3 / 5)] := by
  rw [hMergedCentroid]
  have hmean : (List.range 2).map (fun d =>
      jdiv (List.foldl (fun acc i =>
          if i < hierEmb.length then jadd acc ((hierEmb.getD i []).getD d JsNum.nan)
          else acc) (val 0) [0, 1])
        (val (([0, 1] : List ℕ).length))) = [val (16 / 25 : ℝ), val (12 / 25)] := by
    rw [show List.range 2 = [0, 1] from rfl, List.map_cons, List.map_cons,
      List.map_nil, List.foldl_cons, List.foldl_cons, List.foldl_nil,
      List.foldl_cons, List.foldl_cons, List.foldl_nil]
    norm_num [hierEmb, jdiv_val_val_of_ne]
  rw [hmean, gpuNormalizeCentroid]
  have hn : centroidNorm [val (16 / 25 : ℝ), val (12 / 25)] = val (4 / 5) := by
    rw [centroidNorm, List.foldl_cons, List.foldl_cons, List.foldl_nil,
      jmul_val_val, jadd_val_val, jmul_val_val, jadd_val_val]
    rw [show (0 : ℝ) + 16 / 25 * (16 / 25) + 12 / 25 * (12 / 25) = (4 / 5) ^ 2 by
      norm_num]
    rw [jsqrt_val_nonneg (by positivity), Real.sqrt_sq (by norm_num)]
  rw [hn, jor1_val_ne (by norm_num)]
  rw [List.map_cons, List.map_cons, List.map_nil,
    jdiv_val_val_of_ne (by norm_num), jdiv_val_val_of_ne (by norm_num)]
  norm_num

theorem gpuStep1 : gpuMergeStep hierEmb 2 gcls0 = gcls1 := by
  rw [gpuMergeStep, show gcls0.length = 4 from rfl, gfind1]
  rw [show hMergedDocs gcls0 (0, 1) = [0, 1] from rfl, gmerged_mean01]
  rw [show gcls0 = [⟨[0], [val 1, val 0]⟩,
      ⟨[1], [val (7 / 25), val (24 / 25)]⟩,
      ⟨[2], [val (-77 / 85), val (36 / 85)]⟩,
      ⟨[3], [val 0, val (-1)]⟩] from rfl]
  rfl

theorem gt0 : (hierSims gcls1 2).getD 0 JsNum.nan = val (-8 / 17 : ℝ) := by
  rw [hierSims, show gcls1.length = 3 from rfl,
    show (3 * (3 - 1) / 2 : ℕ) = 3 from rfl, getD_map_range 3 0 (by norm_num)]
  rw [show recoverPair 3 0 = (0, 1) from by decide]
  rw [show (((0, 1) : ℕ × ℕ)).1 * 2 = 0 from rfl,
    show (((0, 1) : ℕ × ℕ)).2 * 2 = 2 from rfl, gflat1]
  rw [cosWGSL_unit2 gflatL1 0 2 (4 / 5) (3 / 5) (-77 / 85) (36 / 85) rfl rfl rfl rfl
    unit_m unit_c]
  norm_num

theorem gt1 : (hierSims gcls1 2).getD 1 JsNum.nan = val (-3 / 5 : ℝ) := by
  rw [hierSims, show gcls1.length = 3 from rfl,
    show (3 * (3 - 1) / 2 : ℕ) = 3 from rfl, getD_map_range 3 1 (by norm_num)]
  rw [show recoverPair 3 1 = (0, 2) from by decide]
  rw [show (((0, 2) : ℕ × ℕ)).1 * 2 = 0 from rfl,
    show (((0, 2) : ℕ × ℕ)).2 * 2 = 4 from rfl, gflat1]
  rw [cosWGSL_unit2 gflatL1 0 4 (4 / 5) (3 / 5) 0 (-1) rfl rfl rfl rfl unit_m unit_d]
  norm_num

theorem gt2 : (hierSims gcls1 2).getD 2 JsNum.nan = val (-36 / 85 : ℝ) := by
  rw [hierSims, show gcls1.length = 3 from rfl,
    show (3 * (3 - 1) / 2 : ℕ) = 3 from rfl, getD_map_range 3 2 (by norm_num)]
  rw [show recoverPair 3 2 = (1, 2) from by decide]
  rw [show (((1, 2) : ℕ × ℕ)).1 * 2 = 2 from rfl,
    show (((1, 2) : ℕ × ℕ)).2 * 2 = 4 from rfl, gflat1]
  rw [cosWGSL_unit2 gflatL1 2 4 (-77 / 85) (36 / 85) 0 (-1) rfl rfl rfl rfl unit_c unit_d]
  norm_num

theorem gfind2 : gpuFindMerge (hierSims gcls1 2) 3 = (1, 2) := by
  rw [gpuFindMerge, pairList_3,
    show List.enum [((0 : ℕ), (1 : ℕ)), (0, 2), (1, 2)] =
      [(0, (0, 1)), (1, (0, 2)), (2, (1, 2))] from rfl]
  simp only [List.map_cons, List.map_nil, gt0, gt1, gt2]
  rw [scanMaxPair]
  simp only [List.foldl_cons, List.foldl_nil]
  norm_num

theorem gpuStep2 : gpuMergeStep hierEmb 2 gcls1 =
    [⟨[0, 1], [val (4 / 5), val (3 / 5)]⟩,
     ⟨[2, 3], hMergedCentroid hierEmb 2 [2, 3]⟩] := by
  rw [gpuMergeStep, show gcls1.length = 3 from rfl, gfind2]
  rw [show hMergedDocs gcls1 (1, 2) = [2, 3] from rfl]
  rw [show gcls1 = [⟨[0, 1], [val (4 / 5), val (3 / 5)]⟩,
      ⟨[2], [val (-77 / 85), val (36 / 85)]⟩,
      ⟨[3], [val 0, val (-1)]⟩] from rfl]
  rfl

theorem gpuHier_run : gpuHierLoop hierEmb 2 2 4 gcls0 =
    some [⟨[0, 1], [val (4 / 5), val (3 / 5)]⟩,
      ⟨[2, 3], hMergedCentroid hierEmb 2 [2, 3]⟩] := by
  have e1 : gpuHierLoop hierEmb 2 2 4 gcls0 =
      gpuHierLoop hierEmb 2 2 3 (gpuMergeStep hierEmb 2 gcls0) := by
    have h := gpuHierLoop_succ hierEmb 2 2 3 gcls0
    rw [if_pos (by norm_num [show gcls0.length = 4 from rfl])] at h
    exact h
  have e2 : gpuHierLoop hierEmb 2 2 3 gcls1 =
      gpuHierLoop hierEmb 2 2 2 (gpuMergeStep hierEmb 2 gcls1) := by
    have h := gpuHierLoop_succ hierEmb 2 2 2 gcls1
    rw [if_pos (by norm_num [show gcls1.length = 3 from rfl])] at h
    exact h
  have e3 : gpuHierLoop hierEmb 2 2 2
      ([⟨[0, 1], [val (4 / 5), val (3 / 5)]⟩,
        ⟨[2, 3], hMergedCentroid hierEmb 2 [2, 3]⟩] : List GCluster) =
      some [⟨[0, 1], [val (4 / 5), val (3 / 5)]⟩,
        ⟨[2, 3], hMergedCentroid hierEmb 2 [2, 3]⟩] := by
    have h := gpuHierLoop_succ hierEmb 2 2 1
      ([⟨[0, 1], [val (4 / 5), val (3 / 5)]⟩,
        ⟨[2, 3], hMergedCentroid hierEmb 2 [2, 3]⟩] : List GCluster)
    rw [if_neg (by norm_num)] at h
    exact h
  rw [e1, gpuStep1, e2, gpuStep2, e3]

theorem gpuHier_result :
    (hierarchicalClusteringGPU hierEmb 2).map
      (fun cls => cls.map Cluster.documentIndices) = some [[0, 1], [2, 3]] := by
  rw [hierarchicalClusteringGPU, if_neg (by
    rw [hierEmb_len, show (hierEmb.getD 0 []).length = 2 from rfl]
    norm_num)]
  rw [show (hierEmb.getD 0 []).length = 2 from rfl, hierEmb_len,
    show hierEmb.enum.map (fun q => GCluster.mk [q.1] q.2) = gcls0 from rfl,
    gpuHier_run]
  simp [sortBySize, sortBy, insertBy]

/-- C1 (amended): the CPU hierarchical backend scores merge candidates by
the average pairwise cosine of the members (`avgLinkage`), while the
parallel backend scores by centroid-to-centroid cosine (`hierSims`); on
inputs where these orderings disagree - such as the four unit vectors of
`hierEmb` with `k = 2` - the backends select different merge pairs and
return clusters with different member sets (the parallel backend
additionally sorts its output by size, the CPU backend does not). -/
theorem C1_linkage_rules_differ :
    (hierarchicalClustering hierEmb 2).map
        (fun cls => cls.map Cluster.documentIndices) = some [[0, 1, 2], [3]] ∧
      (hierarchicalClusteringGPU hierEmb 2).map
        (fun cls => cls.map Cluster.documentIndices) = some [[0, 1], [2, 3]] :=
  ⟨cpuHier_result, gpuHier_result⟩

/-- C1 (counterexample): on the four-vector input `hierEmb` with `k = 2`
the two hierarchical backends return clusters with different member sets,
contradicting the claim that they select the same pair at every step and
return identical clusters. -/
theorem C1_backends_differ_counterexample :
    (hierarchicalClustering hierEmb 2).map
        (fun cls => cls.map Cluster.documentIndices) ≠
      (hierarchicalClusteringGPU hierEmb 2).map
        (fun cls => cls.map Cluster.documentIndices) := by
  rw [cpuHier_result, gpuHier_result]
  intro h
  have h2 := Option.some.inj h
  have h3 := congrArg (fun l => List.getD l 0 []) h2
  simp at h3

end Compear
